import Mathlib

/-!
Shallow embedding of the snowrail x402 facilitator TRON payment engine
(`src/services/tron-x402-service.ts`, `src/services/tron-settlement-service.ts`)
together with models of the JavaScript / Node library functions the engine
calls (`JSON.parse` / `JSON.stringify`, `Buffer` Base64 and UTF-8 codecs,
`BigInt`, `parseInt`, TronWeb address conversion).  Machine numbers are
modelled as `Nat`/`Int` with explicit rounding where JavaScript uses IEEE
doubles; fallible operations return `Option`/`Except`, where `Except.error`
models a thrown JavaScript exception.
-/

/-- JSON values, the result type of `JSON.parse`.  JavaScript numbers are
IEEE-754 binary64 values; a finite double is represented canonically as
`.num n` when its value is the integer `n`, and as `.numd m e` (the value
`m * 2^e` with `m` odd and `e < 0`) when it is not an integer, so that Json
equality coincides with JavaScript `===` on numbers.  `.inf` is
`±Infinity` (`JSON.parse` produces it for out-of-range exponents).  The
zeroes `0` and `-0` are identified: they are `===`-equal and render
identically under every operation the engine performs. -/
inductive Json where
  | null
  | bool (b : Bool)
  | num (n : Int)
  | numd (m : Int) (e : Int)
  | inf (neg : Bool)
  | str (s : String)
  | arr (elems : List Json)
  | obj (fields : List (String × Json))
deriving Repr

mutual

def jsonDecEq : (a b : Json) → Decidable (a = b)
  | .null, .null => isTrue rfl
  | .bool x, .bool y =>
    match decEq x y with
    | isTrue h => isTrue (h ▸ rfl)
    | isFalse h => isFalse (fun hc => by cases hc; exact h rfl)
  | .num x, .num y =>
    match decEq x y with
    | isTrue h => isTrue (h ▸ rfl)
    | isFalse h => isFalse (fun hc => by cases hc; exact h rfl)
  | .numd m1 e1, .numd m2 e2 =>
    match decEq m1 m2, decEq e1 e2 with
    | isTrue h1, isTrue h2 => isTrue (by rw [h1, h2])
    | isFalse h1, _ => isFalse (fun hc => by cases hc; exact h1 rfl)
    | _, isFalse h2 => isFalse (fun hc => by cases hc; exact h2 rfl)
  | .inf x, .inf y =>
    match decEq x y with
    | isTrue h => isTrue (h ▸ rfl)
    | isFalse h => isFalse (fun hc => by cases hc; exact h rfl)
  | .str x, .str y =>
    match decEq x y with
    | isTrue h => isTrue (h ▸ rfl)
    | isFalse h => isFalse (fun hc => by cases hc; exact h rfl)
  | .arr xs, .arr ys =>
    match jsonDecEqList xs ys with
    | isTrue h => isTrue (h ▸ rfl)
    | isFalse h => isFalse (fun hc => by cases hc; exact h rfl)
  | .obj xs, .obj ys =>
    match jsonDecEqFields xs ys with
    | isTrue h => isTrue (h ▸ rfl)
    | isFalse h => isFalse (fun hc => by cases hc; exact h rfl)
  | .null, .bool _ | .null, .num _ | .null, .numd _ _ | .null, .inf _ | .null, .str _
  | .null, .arr _ | .null, .obj _
  | .bool _, .null | .bool _, .num _ | .bool _, .numd _ _ | .bool _, .inf _ | .bool _, .str _
  | .bool _, .arr _ | .bool _, .obj _
  | .num _, .null | .num _, .bool _ | .num _, .numd _ _ | .num _, .inf _ | .num _, .str _
  | .num _, .arr _ | .num _, .obj _
  | .numd _ _, .null | .numd _ _, .bool _ | .numd _ _, .num _ | .numd _ _, .inf _
  | .numd _ _, .str _ | .numd _ _, .arr _ | .numd _ _, .obj _
  | .inf _, .null | .inf _, .bool _ | .inf _, .num _ | .inf _, .numd _ _ | .inf _, .str _
  | .inf _, .arr _ | .inf _, .obj _
  | .str _, .null | .str _, .bool _ | .str _, .num _ | .str _, .numd _ _ | .str _, .inf _
  | .str _, .arr _ | .str _, .obj _
  | .arr _, .null | .arr _, .bool _ | .arr _, .num _ | .arr _, .numd _ _ | .arr _, .inf _
  | .arr _, .str _ | .arr _, .obj _
  | .obj _, .null | .obj _, .bool _ | .obj _, .num _ | .obj _, .numd _ _ | .obj _, .inf _
  | .obj _, .str _ | .obj _, .arr _ =>
    isFalse (fun hc => by cases hc)

def jsonDecEqList : (a b : List Json) → Decidable (a = b)
  | [], [] => isTrue rfl
  | [], _ :: _ => isFalse (fun hc => by cases hc)
  | _ :: _, [] => isFalse (fun hc => by cases hc)
  | x :: xs, y :: ys =>
    match jsonDecEq x y, jsonDecEqList xs ys with
    | isTrue h1, isTrue h2 => isTrue (by rw [h1, h2])
    | isFalse h1, _ => isFalse (fun hc => by cases hc; exact h1 rfl)
    | _, isFalse h2 => isFalse (fun hc => by cases hc; exact h2 rfl)

def jsonDecEqFields : (a b : List (String × Json)) → Decidable (a = b)
  | [], [] => isTrue rfl
  | [], _ :: _ => isFalse (fun hc => by cases hc)
  | _ :: _, [] => isFalse (fun hc => by cases hc)
  | (k1, v1) :: xs, (k2, v2) :: ys =>
    match decEq k1 k2, jsonDecEq v1 v2, jsonDecEqFields xs ys with
    | isTrue h0, isTrue h1, isTrue h2 => isTrue (by rw [h0, h1, h2])
    | isFalse h0, _, _ => isFalse (fun hc => by cases hc; exact h0 rfl)
    | _, isFalse h1, _ => isFalse (fun hc => by cases hc; exact h1 rfl)
    | _, _, isFalse h2 => isFalse (fun hc => by cases hc; exact h2 rfl)

end

instance : DecidableEq Json := jsonDecEq

instance {ε α : Type} [DecidableEq ε] [DecidableEq α] : DecidableEq (Except ε α) :=
  fun a b =>
    match a, b with
    | .ok x, .ok y =>
      match decEq x y with
      | isTrue h => isTrue (h ▸ rfl)
      | isFalse h => isFalse (fun hc => by cases hc; exact h rfl)
    | .error x, .error y =>
      match decEq x y with
      | isTrue h => isTrue (h ▸ rfl)
      | isFalse h => isFalse (fun hc => by cases hc; exact h rfl)
    | .ok _, .error _ => isFalse (fun hc => by cases hc)
    | .error _, .ok _ => isFalse (fun hc => by cases hc)

/-! ## IEEE-754 binary64 model

JavaScript numbers are binary64 doubles.  `JSON.parse` converts a decimal
numeral to the nearest double (round half to even) and `String(x)` renders
a double as the shortest decimal that reads back as the same double; both
are computed exactly over `Nat`/`Int` below. -/

def natLog2F : Nat → Nat → Nat
  | 0, _ => 0
  | f + 1, n => if n < 2 then 0 else natLog2F f (n / 2) + 1

/-- Base-2 logarithm (kernel-reducible formulation). -/
def natLog2 (n : Nat) : Nat := natLog2F n n

/-- Round half to even of the rational `n / d` (`d > 0`). -/
def rhe (n d : Nat) : Nat :=
  let q := n / d
  let r := n % d
  if 2 * r < d then q
  else if 2 * r > d then q + 1
  else if q % 2 = 0 then q else q + 1

/-- Is `p / q ≥ 2^e`? -/
def ratGePow2 (p q : Nat) (e : Int) : Bool :=
  if 0 ≤ e then q * 2 ^ e.toNat ≤ p else q ≤ p * 2 ^ (-e).toNat

/-- Binary exponent of `p / q` (`p, q ≥ 1`): the unique `e` with
`2^e ≤ p / q < 2^(e+1)`, located from the two bit lengths. -/
def ratLog2 (p q : Nat) : Int :=
  let e0 : Int := (natLog2 p : Int) - (natLog2 q : Int)
  if ratGePow2 p q e0 then e0 else e0 - 1

/-- Round half to even of `(p / q) * 2^s`. -/
def rhePow2 (p q : Nat) (s : Int) : Nat :=
  if 0 ≤ s then rhe (p * 2 ^ s.toNat) q else rhe p (q * 2 ^ (-s).toNat)

/-- The binary64 nearest the positive rational `p / q` (round half to
even), as an unnormalised mantissa–exponent pair (value `m * 2^e`); `none`
is overflow to `Infinity`.  Values below the normal range round against
the fixed subnormal scale `2^-1074`. -/
def ratToDouble (p q : Nat) : Option (Nat × Int) :=
  let e := ratLog2 p q
  if 1024 ≤ e then none
  else if e < -1022 then some (rhePow2 p q 1074, -1074)
  else
    let m := rhePow2 p q (52 - e)
    if m = 2 ^ 53 then
      if e + 1 = 1024 then none else some (2 ^ 52, e + 1 - 52)
    else some (m, e - 52)

/-- 2-adic valuation (fuel-based). -/
def twoVal : Nat → Nat → Nat
  | 0, _ => 0
  | f + 1, m => if m ≠ 0 ∧ m % 2 = 0 then twoVal f (m / 2) + 1 else 0

/-- Trailing decimal zeros (fuel-based). -/
def tenVal : Nat → Nat → Nat
  | 0, _ => 0
  | f + 1, m => if m ≠ 0 ∧ m % 10 = 0 then tenVal f (m / 10) + 1 else 0

/-- Canonical Json value of the double `±(m * 2^e)`: integral values
collapse to `.num`, others normalise to an odd mantissa and a negative
exponent. -/
def dyadicJson (neg : Bool) (m : Nat) (e : Int) : Json :=
  if m = 0 then .num 0
  else
    let t := twoVal m m
    let m2 := m / 2 ^ t
    let e2 := e + t
    let sm : Int := if neg then -(m2 : Int) else (m2 : Int)
    if 0 ≤ e2 then .num (sm * 2 ^ e2.toNat) else .numd sm e2

/-- The double `JSON.parse` produces for the decimal numeral `±(D * 10^k)`
(ECMAScript `StringNumericValue` rounding). -/
def jsNumJson (neg : Bool) (D : Nat) (k : Int) : Json :=
  if D = 0 then .num 0
  else
    let pq : Nat × Nat := if 0 ≤ k then (D * 10 ^ k.toNat, 1) else (D, 10 ^ (-k).toNat)
    match ratToDouble pq.1 pq.2 with
    | none => .inf neg
    | some me => dyadicJson neg me.1 me.2

def numDigitsF : Nat → Nat → Nat
  | 0, _ => 1
  | f + 1, n => if n < 10 then 1 else numDigitsF f (n / 10) + 1

/-- Number of decimal digits (kernel-reducible formulation). -/
def numDigits (n : Nat) : Nat := numDigitsF n n

/-- Digit selection of ECMAScript `Number::toString` for the non-integral
double `ma * 2^e` (`ma` odd, `e < 0`), whose exact decimal expansion is
`D * 10^e` with `kD` digits: the shortest digit run `s` (searched from
`k = 1` upwards with fuel `kD`; the exact expansion always succeeds) whose
scaled value `s * 10^(e + kD - k)` reads back as exactly this double,
preferring the closer candidate and breaking ties towards even. -/
def shortestDec (ma : Nat) (e : Int) (D kD : Nat) : Nat → Nat → Nat × Int
  | 0, _ => (D, e)
  | f + 1, k =>
    let δ := kD - k
    let pδ := 10 ^ δ
    let s0 := D / pδ
    let r := D % pδ
    let ex : Int := e + δ
    if jsNumJson false s0 ex = Json.numd (ma : Int) e then
      if jsNumJson false (s0 + 1) ex = Json.numd (ma : Int) e then
        if 2 * r < pδ then (s0, ex)
        else if 2 * r > pδ then (s0 + 1, ex)
        else if s0 % 2 = 0 then (s0, ex) else (s0 + 1, ex)
      else (s0, ex)
    else if jsNumJson false (s0 + 1) ex = Json.numd (ma : Int) e then (s0 + 1, ex)
    else shortestDec ma e D kD f (k + 1)

def expRender (n1 : Int) : String :=
  (if n1 < 0 then "e-" else "e+") ++ toString n1.natAbs

/-- Placement of the significant digits `s` with decimal exponent `n`
(`10^(n-1) ≤ value < 10^n`): clauses 6–10 of ECMAScript
`Number::toString`. -/
def renderDigits (s : Nat) (n : Int) : String :=
  let ds := toString s
  let k : Int := ds.length
  if k ≤ n ∧ n ≤ 21 then ds ++ String.mk (List.replicate (n - k).toNat '0')
  else if 0 < n ∧ n ≤ 21 then
    String.mk (ds.data.take n.toNat) ++ "." ++ String.mk (ds.data.drop n.toNat)
  else if -6 < n ∧ n ≤ 0 then
    "0." ++ String.mk (List.replicate (-n).toNat '0') ++ ds
  else if ds.length = 1 then ds ++ expRender (n - 1)
  else String.mk (ds.data.take 1) ++ "." ++ String.mk (ds.data.drop 1) ++ expRender (n - 1)

/-- ECMAScript `Number::toString` of the canonical non-integral double
`m * 2^e` (`m` odd, `e < 0`): the shortest decimal that re-reads as the
same double, formatted per the specification clauses. -/
def jsNumRender (m e : Int) : String :=
  if 0 ≤ e then toString (m * 2 ^ e.toNat)
  else
    let ma := m.natAbs
    let D := ma * 5 ^ (-e).toNat
    let kD := numDigits D
    let se := shortestDec ma e D kD kD 1
    let t := tenVal se.1 se.1
    let s := se.1 / 10 ^ t
    let ex := se.2 + t
    let n : Int := ex + numDigits s
    (if m < 0 then "-" else "") ++ renderDigits s n

/-- Rendering of `±Infinity` by `String(x)`. -/
def jsInfRender (neg : Bool) : String := if neg then "-Infinity" else "Infinity"

/-! ## JavaScript dynamic semantics helpers

A JavaScript value reaching the engine after `JSON.parse` is either a `Json`
value or `undefined` (a missing property), modelled as `Option Json` with
`none` for `undefined`. -/

/-- Last-wins association lookup: `JSON.parse` keeps the last of duplicate
keys, and property lookup returns that value. -/
def jsObjFind (fields : List (String × Json)) (k : String) : Option Json :=
  fields.foldl (fun acc kv => if kv.1 = k then some kv.2 else acc) none

/-- Property access `j[k]` on a non-null JavaScript value: objects yield the
stored field or `undefined`; primitives and arrays yield `undefined` for the
property names the engine uses. -/
def jsGet : Json → String → Option Json
  | .obj fs, k => jsObjFind fs k
  | _, _ => none

/-- JavaScript truthiness of a JSON value (a `.numd` value is non-integral,
hence non-zero, hence truthy). -/
def truthy : Json → Bool
  | .null => false
  | .bool b => b
  | .num n => n != 0
  | .numd _ _ => true
  | .inf _ => true
  | .str s => s != ""
  | .arr _ => true
  | .obj _ => true

/-- Truthiness of a possibly-`undefined` value. -/
def truthyOpt : Option Json → Bool
  | none => false
  | some j => truthy j

mutual

/-- The `String(x)` conversion JavaScript applies in template literals.
(On `.num` integers the decimal rendering matches JavaScript for every
magnitude below `10^21`, past which JavaScript switches to exponential
notation; the engine never renders such amounts.) -/
def jsToString : Json → String
  | .null => "null"
  | .bool true => "true"
  | .bool false => "false"
  | .num n => toString n
  | .numd m e => jsNumRender m e
  | .inf neg => jsInfRender neg
  | .str s => s
  | .arr xs => jsArrToString xs
  | .obj _ => "[object Object]"

/-- `Array.prototype.join(",")`: `null` elements become empty strings. -/
def jsArrToString : List Json → String
  | [] => ""
  | [.null] => ""
  | [x] => jsToString x
  | .null :: rest => "," ++ jsArrToString rest
  | x :: rest => jsToString x ++ "," ++ jsArrToString rest

end

/-- Interpolation `${x}` of a possibly-`undefined` value in a template
literal. -/
def jsTemplate : Option Json → String
  | none => "undefined"
  | some j => jsToString j

/-- Property access on a possibly-`undefined`/`null` base value: reading a
property of `undefined` or `null` throws a `TypeError`. -/
def jsAccess : Option Json → String → Except String (Option Json)
  | none, k => .error ("Cannot read properties of undefined (reading " ++ k ++ ")")
  | some .null, k => .error ("Cannot read properties of null (reading " ++ k ++ ")")
  | some j, k => .ok (jsGet j k)

/-- JavaScript `a || b` restricted to string-or-undefined values (the empty
string is falsy). -/
def jsOrStr : Option String → Option String → Option String
  | some s, b => if s = "" then b else some s
  | none, b => b

/-! ## JavaScript numeric conversions -/

/-- Whitespace stripped by `BigInt(string)` and `parseInt`. -/
def isJsSpace (c : Char) : Bool :=
  c = ' ' || c = '\t' || c = '\n' || c = '\r' || c = '\x0b' || c = '\x0c'

/-- Value of a nonempty all-decimal-digit character list, `none` otherwise. -/
def decDigitsValue : List Char → Option Nat
  | [] => none
  | cs =>
    if cs.all (fun c => c.isDigit) then
      some (cs.foldl (fun acc c => acc * 10 + (c.toNat - 48)) 0)
    else
      none

/-- Longest leading run of decimal digits and its value; `none` when the list
does not start with a digit. -/
def leadingDigitsValue (cs : List Char) : Option Nat :=
  match cs.takeWhile (fun c => c.isDigit) with
  | [] => none
  | ds => some (ds.foldl (fun acc c => acc * 10 + (c.toNat - 48)) 0)

/-- Models ECMAScript `StringToBigInt` on decimal numerals: surrounding
whitespace is stripped, the empty string converts to `0`, an optional sign
precedes decimal digits, everything else throws a `SyntaxError`
(`0x`/`0o`/`0b` prefixed numerals are not modelled). -/
def jsStringToBigInt (s : String) : Except String Int :=
  let t := (s.data.dropWhile isJsSpace).reverse.dropWhile isJsSpace |>.reverse
  let fail : Except String Int := .error ("Cannot convert " ++ s ++ " to a BigInt")
  match t with
  | [] => .ok 0
  | '-' :: ds =>
    match decDigitsValue ds with
    | some n => .ok (-(n : Int))
    | none => fail
  | '+' :: ds =>
    match decDigitsValue ds with
    | some n => .ok (n : Int)
    | none => fail
  | ds =>
    match decDigitsValue ds with
    | some n => .ok (n : Int)
    | none => fail

/-- Conversion `BigInt(x)` of an arbitrary (possibly `undefined`) value:
`undefined`/`null` throw a `TypeError`, booleans convert to `0`/`1`, integer
numbers convert exactly, non-integral and infinite numbers throw a
`RangeError`, strings go through `StringToBigInt`, arrays and objects are
first converted to their string form. -/
def jsBigIntOfValue : Option Json → Except String Int
  | none => .error "Cannot convert undefined to a BigInt"
  | some .null => .error "Cannot convert null to a BigInt"
  | some (.bool b) => .ok (if b then 1 else 0)
  | some (.num n) => .ok n
  | some (.numd m e) =>
    .error ("The number " ++ jsNumRender m e
      ++ " cannot be converted to a BigInt because it is not an integer")
  | some (.inf neg) =>
    .error ("The number " ++ jsInfRender neg
      ++ " cannot be converted to a BigInt because it is not an integer")
  | some (.str s) => jsStringToBigInt s
  | some (.arr xs) => jsStringToBigInt (jsArrToString xs)
  | some (.obj _) => jsStringToBigInt "[object Object]"

/-- Rounding of a mathematical integer to the nearest IEEE-754 double
(round half to even), the precision loss a JavaScript `Number` suffers.
Integers below `2^53` are exact.  Overflow to `Infinity` (beyond `2^1024`)
is not modelled here; `parseInt` callers never reach such amounts. -/
def roundToDouble (n : Nat) : Nat :=
  if n < 2 ^ 53 then n
  else
    let ulp := 2 ^ (natLog2 n - 52)
    let q := n / ulp
    let r := n % ulp
    if 2 * r < ulp then q * ulp
    else if 2 * r > ulp then (q + 1) * ulp
    else if q % 2 = 0 then q * ulp
    else (q + 1) * ulp

/-- Models `parseInt(s, 10)`: strip leading whitespace, read an optional
sign and the longest run of decimal digits; no digits means `NaN` (`none`).
The digit value is rounded to double precision as `parseInt` returns a
JavaScript `Number`. -/
def jsParseInt10 (s : String) : Option Int :=
  let cs := s.data.dropWhile isJsSpace
  match cs with
  | '-' :: rest => (leadingDigitsValue rest).map (fun n => -(roundToDouble n : Int))
  | '+' :: rest => (leadingDigitsValue rest).map (fun n => (roundToDouble n : Int))
  | _ => (leadingDigitsValue cs).map (fun n => (roundToDouble n : Int))

/-- Application of `parseInt(x, 10)` to an arbitrary engine value: the value
is first converted to a string (`parseInt(undefined)` parses the string
"undefined" and yields `NaN`). -/
def jsParseIntOfValue : Option Json → Option Int
  | none => none
  | some j => jsParseInt10 (jsToString j)

/-- JavaScript `a < b` where `b` may be `NaN`: comparisons with `NaN` are
false. -/
def jsLtNum (a : Int) : Option Int → Bool
  | none => false
  | some b => a < b

/-- JavaScript `a >= b` where `b` may be `NaN`. -/
def jsGeNum (a : Int) : Option Int → Bool
  | none => false
  | some b => b ≤ a

/-! ## UTF-8 codec (Node `Buffer.from(string)` / `buffer.toString("utf-8")`) -/

/-- UTF-8 encoding of one Unicode scalar value. -/
def utf8EncodeChar (c : Char) : List Nat :=
  if c.toNat < 0x80 then [c.toNat]
  else if c.toNat < 0x800 then [0xC0 + c.toNat / 64, 0x80 + c.toNat % 64]
  else if c.toNat < 0x10000 then
    [0xE0 + c.toNat / 4096, 0x80 + c.toNat / 64 % 64, 0x80 + c.toNat % 64]
  else
    [0xF0 + c.toNat / 262144, 0x80 + c.toNat / 4096 % 64, 0x80 + c.toNat / 64 % 64,
      0x80 + c.toNat % 64]

def utf8EncodeList : List Char → List Nat
  | [] => []
  | c :: cs => utf8EncodeChar c ++ utf8EncodeList cs

/-- UTF-8 encoding of a string, as `Buffer.from(s)` produces. -/
def utf8Encode (s : String) : List Nat := utf8EncodeList s.data

/-- The U+FFFD replacement character. -/
def replChar : Char := '�'

/-- Continuation-byte test `0x80..0xBF`. -/
def utf8Cont (b : Nat) : Bool := 0x80 ≤ b && b ≤ 0xBF

/-- Scalar value of a two-byte sequence. -/
def utf8Val2 (b b2 : Nat) : Nat := (b - 0xC0) * 64 + (b2 - 0x80)

/-- Scalar value of a three-byte sequence. -/
def utf8Val3 (b b2 b3 : Nat) : Nat := (b - 0xE0) * 4096 + (b2 - 0x80) * 64 + (b3 - 0x80)

/-- Scalar value of a four-byte sequence. -/
def utf8Val4 (b b2 b3 b4 : Nat) : Nat :=
  (b - 0xF0) * 262144 + (b2 - 0x80) * 4096 + (b3 - 0x80) * 64 + (b4 - 0x80)

/-- Validity of a three-byte sequence: continuation bytes, not overlong, not
a surrogate. -/
def utf8Valid3 (b b2 b3 : Nat) : Bool :=
  utf8Cont b2 && utf8Cont b3 && 0x800 ≤ utf8Val3 b b2 b3 &&
    !(0xD800 ≤ utf8Val3 b b2 b3 && utf8Val3 b b2 b3 ≤ 0xDFFF)

/-- Validity of a four-byte sequence: continuation bytes, in the
supplementary-plane range. -/
def utf8Valid4 (b b2 b3 b4 : Nat) : Bool :=
  utf8Cont b2 && utf8Cont b3 && utf8Cont b4 &&
    0x10000 ≤ utf8Val4 b b2 b3 b4 && utf8Val4 b b2 b3 b4 ≤ 0x10FFFF

/-- Lossy UTF-8 decoding as performed by `buffer.toString("utf-8")`: valid
sequences decode exactly, malformed bytes become U+FFFD (decoding then
resumes after the offending lead byte; the exact resynchronisation point for
malformed input is a modelling choice, valid input is decoded exactly). -/
def utf8Decode : List Nat → List Char
  | [] => []
  | b :: rest =>
    match rest with
    | [] =>
      if b < 0x80 then [Char.ofNat b] else [replChar]
    | [b2] =>
      if b < 0x80 then Char.ofNat b :: utf8Decode [b2]
      else if 0xC2 ≤ b && b ≤ 0xDF then
        [if utf8Cont b2 then Char.ofNat (utf8Val2 b b2) else replChar]
      else if 0xE0 ≤ b && b ≤ 0xEF then [replChar]
      else if 0xF0 ≤ b && b ≤ 0xF4 then [replChar]
      else replChar :: utf8Decode [b2]
    | [b2, b3] =>
      if b < 0x80 then Char.ofNat b :: utf8Decode [b2, b3]
      else if 0xC2 ≤ b && b ≤ 0xDF then
        (if utf8Cont b2 then Char.ofNat (utf8Val2 b b2) else replChar) :: utf8Decode [b3]
      else if 0xE0 ≤ b && b ≤ 0xEF then
        [if utf8Valid3 b b2 b3 then Char.ofNat (utf8Val3 b b2 b3) else replChar]
      else if 0xF0 ≤ b && b ≤ 0xF4 then [replChar]
      else replChar :: utf8Decode [b2, b3]
    | [b2, b3, b4] =>
      if b < 0x80 then Char.ofNat b :: utf8Decode [b2, b3, b4]
      else if 0xC2 ≤ b && b ≤ 0xDF then
        (if utf8Cont b2 then Char.ofNat (utf8Val2 b b2) else replChar) :: utf8Decode [b3, b4]
      else if 0xE0 ≤ b && b ≤ 0xEF then
        (if utf8Valid3 b b2 b3 then Char.ofNat (utf8Val3 b b2 b3) else replChar)
          :: utf8Decode [b4]
      else if 0xF0 ≤ b && b ≤ 0xF4 then
        [if utf8Valid4 b b2 b3 b4 then Char.ofNat (utf8Val4 b b2 b3 b4) else replChar]
      else replChar :: utf8Decode [b2, b3, b4]
    | b2 :: b3 :: b4 :: b5 :: rest5 =>
      if b < 0x80 then Char.ofNat b :: utf8Decode (b2 :: b3 :: b4 :: b5 :: rest5)
      else if 0xC2 ≤ b && b ≤ 0xDF then
        (if utf8Cont b2 then Char.ofNat (utf8Val2 b b2) else replChar)
          :: utf8Decode (b3 :: b4 :: b5 :: rest5)
      else if 0xE0 ≤ b && b ≤ 0xEF then
        (if utf8Valid3 b b2 b3 then Char.ofNat (utf8Val3 b b2 b3) else replChar)
          :: utf8Decode (b4 :: b5 :: rest5)
      else if 0xF0 ≤ b && b ≤ 0xF4 then
        (if utf8Valid4 b b2 b3 b4 then Char.ofNat (utf8Val4 b b2 b3 b4) else replChar)
          :: utf8Decode (b5 :: rest5)
      else replChar :: utf8Decode (b2 :: b3 :: b4 :: b5 :: rest5)

/-- String-level lossy UTF-8 decode. -/
def utf8DecodeStr (bs : List Nat) : String := String.mk (utf8Decode bs)

/-! ## Base64 codec (Node `Buffer.from(s, "base64")` / `buffer.toString("base64")`) -/

/-- Character of one Base64 sextet. -/
def b64Char (n : Nat) : Char :=
  if n < 26 then Char.ofNat (65 + n)
  else if n < 52 then Char.ofNat (97 + (n - 26))
  else if n < 62 then Char.ofNat (48 + (n - 52))
  else if n = 62 then '+'
  else '/'

/-- Sextet of one Base64 character. -/
def b64Value (c : Char) : Option Nat :=
  if 'A' ≤ c && c ≤ 'Z' then some (c.toNat - 65)
  else if 'a' ≤ c && c ≤ 'z' then some (c.toNat - 71)
  else if '0' ≤ c && c ≤ '9' then some (c.toNat + 4)
  else if c = '+' then some 62
  else if c = '/' then some 63
  else none

def base64EncodeList : List Nat → List Char
  | [] => []
  | [a] => [b64Char (a / 4), b64Char (a % 4 * 16), '=', '=']
  | [a, b] => [b64Char (a / 4), b64Char (a % 4 * 16 + b / 16), b64Char (b % 16 * 4), '=']
  | a :: b :: c :: rest =>
    b64Char (a / 4) :: b64Char (a % 4 * 16 + b / 16) :: b64Char (b % 16 * 4 + c / 64) ::
      b64Char (c % 64) :: base64EncodeList rest

/-- Base64 rendering of a byte list, as `buffer.toString("base64")` produces. -/
def base64Encode (bs : List Nat) : String := String.mk (base64EncodeList bs)

/-- Sextet stream Node's Base64 decoder extracts from its input: characters
outside the alphabet are skipped, the first `'='` stops decoding (the two
stopping rules of `base64_decode_slow` in Node's `base64.h`). -/
def b64Sextets : List Char → List Nat
  | [] => []
  | c :: rest =>
    if c = '=' then []
    else
      match b64Value c with
      | some v => v :: b64Sextets rest
      | none => b64Sextets rest

/-- Bytes of a sextet stream: every completed 8 bits yields a byte,
trailing bits are dropped. -/
def b64SextetsToBytes : List Nat → List Nat
  | [] => []
  | [_] => []
  | [v1, v2] => [v1 * 4 + v2 / 16]
  | [v1, v2, v3] => [v1 * 4 + v2 / 16, v2 % 16 * 16 + v3 / 4]
  | v1 :: v2 :: v3 :: v4 :: rest =>
    (v1 * 4 + v2 / 16) :: (v2 % 16 * 16 + v3 / 4) :: (v3 % 4 * 64 + v4) ::
      b64SextetsToBytes rest

/-- Base64 decoding of a character list as `Buffer.from(s, "base64")`
performs it: never fails — characters outside the alphabet are skipped,
the first `'='` ends the input, and every completed byte of the remaining
sextet stream is emitted. -/
def base64DecodeList (cs : List Char) : List Nat :=
  b64SextetsToBytes (b64Sextets cs)

/-! ## Hex rendering and TRON base58 addresses -/

/-- Lower-case hex digit. -/
def hexDigit (n : Nat) : Char :=
  if n < 10 then Char.ofNat (48 + n) else Char.ofNat (87 + n)

def hexOfBytes : List Nat → List Char
  | [] => []
  | b :: rest => hexDigit (b / 16) :: hexDigit (b % 16) :: hexOfBytes rest

/-- Models `tronWeb.toHex(message)` on a string argument: the 0x-prefixed hex
of its UTF-8 bytes. -/
def jsToHexStr (s : String) : String := "0x" ++ String.mk (hexOfBytes (utf8Encode s))

/-- The Base58 alphabet used by TRON (Bitcoin alphabet). -/
def b58Alphabet : List Char := "123456789ABCDEFGHJKLMNPQRSTUVWXYZabcdefghijkmnopqrstuvwxyz".data

def b58Value (c : Char) : Option Nat :=
  let i := b58Alphabet.indexOf c
  if i < 58 then some i else none

def b58DecodeNat (cs : List Char) : Option Nat :=
  cs.foldl (fun acc c => acc.bind fun a => (b58Value c).map fun v => a * 58 + v) (some 0)

/-- Big-endian bytes of `n`, exactly `len` bytes. -/
def natToBytesBEFixed : Nat → Nat → List Nat
  | 0, _ => []
  | len + 1, n => natToBytesBEFixed len (n / 256) ++ [n % 256]

/-- Models `tronWeb.address.toHex` on a base58check TRON address: decode the
34-character base58 string to 25 bytes and render the first 21 (dropping the
4 checksum bytes) as hex.  The sha256 checksum is not re-verified here; on a
checksum failure the library throws, which callers catch (`none` covers every
rejection). -/
def tronWebToHex (s : String) : Option String :=
  if s.length = 34 then
    (b58DecodeNat s.data).bind fun v =>
      if v < 256 ^ 25 then
        some (String.mk (hexOfBytes ((natToBytesBEFixed 25 v).take 21)))
      else none
  else none

/-- Models `String.prototype.toLowerCase` on the ASCII range (the addresses
and hex strings the engine compares are ASCII; other characters pass
through unchanged). -/
def jsToLowerCase (s : String) : String :=
  String.mk (s.data.map fun c => if 'A' ≤ c ∧ c ≤ 'Z' then Char.ofNat (c.toNat + 32) else c)

/-- Data-level `String.startsWith` (the byte-position implementation in
core does not reduce in the kernel). -/
def strStartsWith (s pre : String) : Bool := pre.data.isPrefixOf s.data

/-- Embeds `TronX402Service.normalizeAddress`: base58 addresses (leading "T")
are converted to hex and lower-cased; anything else is lower-cased as-is; a
conversion failure falls back to lower-casing (the catch block). -/
def normalizeAddress (address : String) : String :=
  if strStartsWith address "T" then
    match tronWebToHex address with
    | some h => jsToLowerCase h
    | none => jsToLowerCase address
  else jsToLowerCase address

/-! ## JSON stringify (`JSON.stringify`) -/

/-- Escaping `JSON.stringify` applies inside string literals. -/
def escapeChar (c : Char) : List Char :=
  if c = '"' then ['\\', '"']
  else if c = '\\' then ['\\', '\\']
  else if c = '\x08' then ['\\', 'b']
  else if c = '\t' then ['\\', 't']
  else if c = '\n' then ['\\', 'n']
  else if c = '\x0c' then ['\\', 'f']
  else if c = '\r' then ['\\', 'r']
  else if c.toNat < 0x20 then ['\\', 'u', '0', '0', hexDigit (c.toNat / 16), hexDigit (c.toNat % 16)]
  else [c]

def escapeList : List Char → List Char
  | [] => []
  | c :: cs => escapeChar c ++ escapeList cs

/-- Rendering of a JSON string literal. -/
def stringifyStr (s : String) : List Char := '"' :: (escapeList s.data ++ ['"'])

mutual

/-- Compact rendering of a JSON value, as `JSON.stringify` produces
(`Infinity` serialises as `null`). -/
def stringifyJson : Json → List Char
  | .null => "null".data
  | .bool true => "true".data
  | .bool false => "false".data
  | .num n => (toString n).data
  | .numd m e => (jsNumRender m e).data
  | .inf _ => "null".data
  | .str s => stringifyStr s
  | .arr xs => '[' :: stringifyArr xs
  | .obj fs => '{' :: stringifyObjBody fs

def stringifyArr : List Json → List Char
  | [] => [']']
  | [x] => stringifyJson x ++ [']']
  | x :: rest => stringifyJson x ++ ',' :: stringifyArr rest

def stringifyObjBody : List (String × Json) → List Char
  | [] => ['}']
  | [(k, v)] => stringifyStr k ++ ':' :: (stringifyJson v ++ ['}'])
  | (k, v) :: rest => stringifyStr k ++ ':' :: (stringifyJson v ++ ',' :: stringifyObjBody rest)

end

/-! ## JSON parser (`JSON.parse`) -/

def jsonWs (c : Char) : Bool :=
  c = ' ' || c = '\t' || c = '\n' || c = '\r'

def skipWs (cs : List Char) : List Char := cs.dropWhile jsonWs

def hexVal (c : Char) : Option Nat :=
  if '0' ≤ c && c ≤ '9' then some (c.toNat - 48)
  else if 'a' ≤ c && c ≤ 'f' then some (c.toNat - 87)
  else if 'A' ≤ c && c ≤ 'F' then some (c.toNat - 55)
  else none

/-- Escape map for the single-character JSON escapes. -/
def escMap (e : Char) : Option Char :=
  if e = '"' then some '"'
  else if e = '\\' then some '\\'
  else if e = '/' then some '/'
  else if e = 'b' then some '\x08'
  else if e = 'f' then some '\x0c'
  else if e = 'n' then some '\n'
  else if e = 'r' then some '\r'
  else if e = 't' then some '\t'
  else none

/-- Body of a JSON string literal after the opening quote: content and the
input after the closing quote.  Surrogate `\u` escape pairs are not
modelled (a Unicode-scalar string cannot carry lone surrogates, and
`JSON.stringify` output never contains surrogate escapes); such input is
rejected. -/
def parseStringBody : List Char → Option (List Char × List Char)
  | [] => none
  | c :: rest =>
    if c = '"' then some ([], rest)
    else if c = '\\' then
      match rest with
      | [] => none
      | e :: rest2 =>
        if e = 'u' then
          match rest2 with
          | a :: b :: c3 :: d :: rest3 =>
            (hexVal a).bind fun va => (hexVal b).bind fun vb =>
              (hexVal c3).bind fun vc => (hexVal d).bind fun vd =>
                if 0xD800 ≤ va * 4096 + vb * 256 + vc * 16 + vd
                    ∧ va * 4096 + vb * 256 + vc * 16 + vd ≤ 0xDFFF then none
                else
                  (parseStringBody rest3).map fun p =>
                    (Char.ofNat (va * 4096 + vb * 256 + vc * 16 + vd) :: p.1, p.2)
          | _ => none
        else
          (escMap e).bind fun ch =>
            (parseStringBody rest2).map fun p => (ch :: p.1, p.2)
    else if c.toNat < 0x20 then none
    else (parseStringBody rest).map fun p => (c :: p.1, p.2)

/-- Nonempty digit run without a JSON leading zero, its value, and the rest. -/
def parseDigits (cs : List Char) : Option (Nat × List Char) :=
  match cs.takeWhile (fun c => c.isDigit) with
  | [] => none
  | '0' :: _ :: _ => none
  | ds => some (ds.foldl (fun acc c => acc * 10 + (c.toNat - 48)) 0,
      cs.dropWhile (fun c => c.isDigit))

/-- Literal matcher: strips an expected character sequence. -/
def stripLit : List Char → List Char → Option (List Char)
  | [], l => some l
  | _ :: _, [] => none
  | x :: xs, y :: ys => if y = x then stripLit xs ys else none

/-- Longest leading run of decimal digits, and the rest. -/
def takeDigits (cs : List Char) : List Char × List Char :=
  (cs.takeWhile (fun c => c.isDigit), cs.dropWhile (fun c => c.isDigit))

def digitsVal (ds : List Char) : Nat :=
  ds.foldl (fun acc c => acc * 10 + (c.toNat - 48)) 0

/-- Exponent part `([eE] [+-]? digits)?` of a JSON numeral: adjusts the
decimal exponent `k` of the significand `D`; an `e`/`E` marker without
digits is a parse error. -/
def parseNumExp (D : Nat) (k : Int) (cs : List Char) : Option (Nat × Int × List Char) :=
  match cs with
  | [] => some (D, k, [])
  | c :: cs2 =>
    if c = 'e' ∨ c = 'E' then
      match cs2 with
      | '+' :: cs3 =>
        (match takeDigits cs3 with
         | ([], _) => none
         | (ds, cs4) => some (D, k + digitsVal ds, cs4))
      | '-' :: cs3 =>
        (match takeDigits cs3 with
         | ([], _) => none
         | (ds, cs4) => some (D, k - digitsVal ds, cs4))
      | _ =>
        (match takeDigits cs2 with
         | ([], _) => none
         | (ds, cs3) => some (D, k + digitsVal ds, cs3))
    else some (D, k, cs)

/-- Fraction-and-exponent tail `(. digits)? ([eE] [+-]? digits)?` of a JSON
numeral whose integer part has value `i`: yields the decimal significand
`D` and exponent `k` (the numeral denotes `D * 10^k`) and the rest; a
decimal point not followed by a digit is a parse error. -/
def parseNumTail (i : Nat) (cs : List Char) : Option (Nat × Int × List Char) :=
  match cs with
  | '.' :: cs2 =>
    (match takeDigits cs2 with
     | ([], _) => none
     | (ds, cs3) => parseNumExp (i * 10 ^ ds.length + digitsVal ds) (-(ds.length : Int)) cs3)
  | _ => parseNumExp i 0 cs

mutual

/-- Recursive-descent JSON value parser over the full JSON grammar.  The
fuel argument only bounds recursion depth and is chosen large enough at
the top level; numerals follow the JSON number grammar (no leading zeros,
optional fraction and exponent) and convert to the nearest binary64. -/
def parseValue : Nat → List Char → Option (Json × List Char)
  | 0, _ => none
  | fuel + 1, cs =>
    match skipWs cs with
    | [] => none
    | c :: rest =>
      if c = 'n' then (stripLit ['u', 'l', 'l'] rest).map fun r => (.null, r)
      else if c = 't' then (stripLit ['r', 'u', 'e'] rest).map fun r => (.bool true, r)
      else if c = 'f' then (stripLit ['a', 'l', 's', 'e'] rest).map fun r => (.bool false, r)
      else if c = '"' then (parseStringBody rest).map fun p => (.str (String.mk p.1), p.2)
      else if c = '[' then
        match skipWs rest with
        | d :: r2 =>
          if d = ']' then some (.arr [], r2)
          else (parseElems fuel rest).map fun p => (.arr p.1, p.2)
        | [] => none
      else if c = '\x7b' then
        match skipWs rest with
        | d :: r2 =>
          if d = '\x7d' then some (.obj [], r2)
          else (parseMembers fuel rest).map fun p => (.obj p.1, p.2)
        | [] => none
      else if c = '-' then
        (parseDigits rest).bind fun p =>
          (parseNumTail p.1 p.2).map fun q => (jsNumJson true q.1 q.2.1, q.2.2)
      else
        (parseDigits (c :: rest)).bind fun p =>
          (parseNumTail p.1 p.2).map fun q => (jsNumJson false q.1 q.2.1, q.2.2)

def parseMembers : Nat → List Char → Option (List (String × Json) × List Char)
  | 0, _ => none
  | fuel + 1, cs =>
    match skipWs cs with
    | [] => none
    | c :: rest =>
      if c = '"' then
        (parseStringBody rest).bind fun pk =>
          match skipWs pk.2 with
          | [] => none
          | c2 :: r2 =>
            if c2 = ':' then
              (parseValue fuel r2).bind fun pv =>
                match skipWs pv.2 with
                | [] => none
                | c3 :: r4 =>
                  if c3 = ',' then
                    (parseMembers fuel r4).map fun pm =>
                      ((String.mk pk.1, pv.1) :: pm.1, pm.2)
                  else if c3 = '\x7d' then some ([(String.mk pk.1, pv.1)], r4)
                  else none
            else none
      else none

def parseElems : Nat → List Char → Option (List Json × List Char)
  | 0, _ => none
  | fuel + 1, cs =>
    (parseValue fuel cs).bind fun pv =>
      match skipWs pv.2 with
      | [] => none
      | c :: r2 =>
        if c = ',' then (parseElems fuel r2).map fun p => (pv.1 :: p.1, p.2)
        else if c = ']' then some ([pv.1], r2)
        else none

end

/-- Models `JSON.parse`: parse one value and require only whitespace after
it.  The fuel bound exceeds any possible number of recursive parser calls on
the given input. -/
def jsonParse (s : String) : Option Json :=
  match parseValue (s.length + 64) s.data with
  | some (j, rest) => if skipWs rest = [] then some j else none
  | none => none

/-- Embeds `TronX402Service.parsePaymentHeader`: Base64-decode (total —
Node skips invalid characters), lossy UTF-8 decode (also total), then
`JSON.parse`, whose exception is caught and becomes `null` (`none`).  The
`as TronPaymentToken` cast performs no runtime check, so the raw parsed
JSON value is returned unvalidated. -/
def parsePaymentHeader (paymentHeader : String) : Option Json :=
  jsonParse (utf8DecodeStr (base64DecodeList paymentHeader.data))

/-! ## Codec round-trip lemmas -/

theorem b64Value_b64Char : ∀ n, n < 64 → b64Value (b64Char n) = some n := by decide

theorem b64Char_ne_pad : ∀ n, n < 64 → b64Char n ≠ '=' := by decide

theorem b64Sextets_char (n : Nat) (h : n < 64) (rest : List Char) :
    b64Sextets (b64Char n :: rest) = n :: b64Sextets rest := by
  rw [b64Sextets, if_neg (b64Char_ne_pad n h), b64Value_b64Char n h]

theorem b64SextetsToBytes_cons4 (v1 v2 v3 v4 : Nat) (L : List Nat) :
    b64SextetsToBytes (v1 :: v2 :: v3 :: v4 :: L) =
      (v1 * 4 + v2 / 16) :: (v2 % 16 * 16 + v3 / 4) :: (v3 % 4 * 64 + v4) ::
        b64SextetsToBytes L := rfl

theorem base64DecodeList_encodeList :
    ∀ bs : List Nat, (∀ b ∈ bs, b < 256) →
      base64DecodeList (base64EncodeList bs) = bs := by
  intro bs
  induction bs using base64EncodeList.induct with
  | case1 => intro _; rfl
  | case2 a =>
    intro h
    have ha : a < 256 := h a (by simp)
    rw [base64EncodeList, base64DecodeList]
    rw [b64Sextets_char (a / 4) (by omega), b64Sextets_char (a % 4 * 16) (by omega)]
    rw [show b64Sextets ['=', '='] = [] from rfl]
    rw [show b64SextetsToBytes [a / 4, a % 4 * 16] =
      [a / 4 * 4 + a % 4 * 16 / 16] from rfl]
    simp only [List.cons.injEq, and_true]
    omega
  | case3 a b =>
    intro h
    have ha : a < 256 := h a (by simp)
    have hb : b < 256 := h b (by simp)
    rw [base64EncodeList, base64DecodeList]
    rw [b64Sextets_char (a / 4) (by omega), b64Sextets_char (a % 4 * 16 + b / 16) (by omega),
      b64Sextets_char (b % 16 * 4) (by omega)]
    rw [show b64Sextets ['='] = [] from rfl]
    rw [show b64SextetsToBytes [a / 4, a % 4 * 16 + b / 16, b % 16 * 4] =
      [a / 4 * 4 + (a % 4 * 16 + b / 16) / 16,
        (a % 4 * 16 + b / 16) % 16 * 16 + b % 16 * 4 / 4] from rfl]
    simp only [List.cons.injEq, and_true]
    have e2 : (a % 4 * 16 + b / 16) / 16 = a % 4 + b / 16 / 16 := by omega
    have e3 : (a % 4 * 16 + b / 16) % 16 = b / 16 % 16 := by omega
    constructor <;> omega
  | case4 a b c rest ih =>
    intro h
    have ha : a < 256 := h a (by simp)
    have hb : b < 256 := h b (by simp)
    have hc : c < 256 := h c (by simp)
    have hrest : ∀ x ∈ rest, x < 256 := fun x hx => h x (by simp [hx])
    rw [base64EncodeList, base64DecodeList]
    rw [b64Sextets_char (a / 4) (by omega), b64Sextets_char (a % 4 * 16 + b / 16) (by omega),
      b64Sextets_char (b % 16 * 4 + c / 64) (by omega), b64Sextets_char (c % 64) (by omega)]
    rw [b64SextetsToBytes_cons4]
    rw [show b64SextetsToBytes (b64Sextets (base64EncodeList rest)) =
      base64DecodeList (base64EncodeList rest) from rfl]
    rw [ih hrest]
    simp only [List.cons.injEq]
    have e2 : (a % 4 * 16 + b / 16) / 16 = a % 4 + b / 16 / 16 := by omega
    have e3 : (a % 4 * 16 + b / 16) % 16 = b / 16 % 16 := by omega
    have e4 : (b % 16 * 4 + c / 64) / 4 = b % 16 + c / 64 / 4 := by omega
    have e5 : (b % 16 * 4 + c / 64) % 4 = c / 64 % 4 := by omega
    refine ⟨by omega, by omega, by omega, trivial⟩

theorem utf8Decode_encodeChar (c : Char) (tail : List Nat) :
    utf8Decode (utf8EncodeChar c ++ tail) = c :: utf8Decode tail := by
  have hv := c.valid
  simp only [Nat.isValidChar, UInt32.isValidChar] at hv
  have hofn : Char.ofNat c.toNat = c := Char.ofNat_toNat c
  have hn : c.toNat = c.val.toNat := rfl
  unfold utf8EncodeChar
  split <;> rename_i h1
  · simp only [List.cons_append, List.nil_append]
    rcases tail with _ | ⟨t1, _ | ⟨t2, _ | ⟨t3, _ | ⟨t4, ts⟩⟩⟩⟩ <;>
      simp [utf8Decode, h1, hofn]
  · split <;> rename_i h2
    · have hb1 : ¬ (0xC0 + c.toNat / 64 < 0x80) := by omega
      have hb2 : 0xC2 ≤ 0xC0 + c.toNat / 64 ∧ 0xC0 + c.toNat / 64 ≤ 0xDF := by omega
      have hc : utf8Cont (0x80 + c.toNat % 64) = true := by simp [utf8Cont]; omega
      have hval : utf8Val2 (0xC0 + c.toNat / 64) (0x80 + c.toNat % 64) = c.toNat := by
        simp [utf8Val2]; omega
      simp only [List.cons_append, List.nil_append]
      rcases tail with _ | ⟨t1, _ | ⟨t2, _ | ⟨t3, ts⟩⟩⟩ <;>
        simp [utf8Decode, hb1, hb2, hc, hval, hofn]
    · split <;> rename_i h3
      · have hb1 : ¬ (0xE0 + c.toNat / 4096 < 0x80) := by omega
        have hb2 : ¬ (0xC2 ≤ 0xE0 + c.toNat / 4096 ∧ 0xE0 + c.toNat / 4096 ≤ 0xDF) := by omega
        have hb3 : 0xE0 ≤ 0xE0 + c.toNat / 4096 ∧ 0xE0 + c.toNat / 4096 ≤ 0xEF := by omega
        have hval : utf8Val3 (0xE0 + c.toNat / 4096) (0x80 + c.toNat / 64 % 64)
            (0x80 + c.toNat % 64) = c.toNat := by simp [utf8Val3]; omega
        have hvalid : utf8Valid3 (0xE0 + c.toNat / 4096) (0x80 + c.toNat / 64 % 64)
            (0x80 + c.toNat % 64) = true := by
          simp [utf8Valid3, utf8Cont, hval]
          omega
        simp only [List.cons_append, List.nil_append]
        rcases tail with _ | ⟨t1, _ | ⟨t2, ts⟩⟩ <;>
          simp [utf8Decode, hb1, hb2, hb3, hvalid, hval, hofn]
      · have hb1 : ¬ (0xF0 + c.toNat / 262144 < 0x80) := by omega
        have hb2 : ¬ (0xC2 ≤ 0xF0 + c.toNat / 262144 ∧ 0xF0 + c.toNat / 262144 ≤ 0xDF) := by
          omega
        have hb3 : ¬ (0xE0 ≤ 0xF0 + c.toNat / 262144 ∧ 0xF0 + c.toNat / 262144 ≤ 0xEF) := by
          omega
        have hb4 : 0xF0 ≤ 0xF0 + c.toNat / 262144 ∧ 0xF0 + c.toNat / 262144 ≤ 0xF4 := by
          rcases hv with hv | hv <;> omega
        have hval : utf8Val4 (0xF0 + c.toNat / 262144) (0x80 + c.toNat / 4096 % 64)
            (0x80 + c.toNat / 64 % 64) (0x80 + c.toNat % 64) = c.toNat := by
          simp [utf8Val4]; omega
        have hvalid : utf8Valid4 (0xF0 + c.toNat / 262144) (0x80 + c.toNat / 4096 % 64)
            (0x80 + c.toNat / 64 % 64) (0x80 + c.toNat % 64) = true := by
          simp [utf8Valid4, utf8Cont, hval]
          rcases hv with hv | hv <;> omega
        simp only [List.cons_append, List.nil_append]
        rcases tail with _ | ⟨t1, ts⟩ <;>
          simp [utf8Decode, hb1, hb2, hb3, hb4, hvalid, hval, hofn]

theorem utf8EncodeChar_lt (c : Char) : ∀ b ∈ utf8EncodeChar c, b < 256 := by
  have hv := c.valid
  simp only [Nat.isValidChar, UInt32.isValidChar] at hv
  have hn : c.toNat = c.val.toNat := rfl
  unfold utf8EncodeChar
  split <;> rename_i h1
  · intro b hb; simp at hb; omega
  · split <;> rename_i h2
    · intro b hb; simp at hb; rcases hb with h | h <;> omega
    · split <;> rename_i h3
      · intro b hb; simp at hb; rcases hb with h | h | h <;> omega
      · intro b hb; simp at hb
        rcases hv with hv | hv
        · omega
        · rcases hb with h | h | h | h <;> omega

theorem utf8EncodeList_lt (cs : List Char) : ∀ b ∈ utf8EncodeList cs, b < 256 := by
  induction cs with
  | nil => intro b hb; cases hb
  | cons c cs ih =>
    intro b hb
    rw [utf8EncodeList] at hb
    rcases List.mem_append.mp hb with h | h
    · exact utf8EncodeChar_lt c b h
    · exact ih b h

theorem utf8Decode_encodeList (cs : List Char) (tail : List Nat) :
    utf8Decode (utf8EncodeList cs ++ tail) = cs ++ utf8Decode tail := by
  induction cs with
  | nil => simp [utf8EncodeList]
  | cons c cs ih =>
    rw [utf8EncodeList, List.append_assoc, utf8Decode_encodeChar, ih, List.cons_append]

theorem utf8DecodeStr_encode (s : String) : utf8DecodeStr (utf8Encode s) = s := by
  have h := utf8Decode_encodeList s.data []
  simp only [List.append_nil, show utf8Decode [] = [] from rfl] at h
  rw [utf8DecodeStr, utf8Encode, h]

/-! ## JSON parser round-trip lemmas -/

theorem hexVal_hexDigit : ∀ n, n < 16 → hexVal (hexDigit n) = some n := by decide

theorem skipWs_cons (c : Char) (l : List Char) (h : jsonWs c = false) :
    skipWs (c :: l) = c :: l := by
  simp [skipWs, List.dropWhile_cons, h]

theorem parseStringBody_escape :
    ∀ (cs : List Char) (rest : List Char),
      parseStringBody (escapeList cs ++ '"' :: rest) = some (cs, rest) := by
  intro cs
  induction cs with
  | nil =>
    intro rest
    rw [escapeList, List.nil_append, parseStringBody.eq_def]
    simp
  | cons c cs ih =>
    intro rest
    rw [escapeList, List.append_assoc]
    unfold escapeChar
    split <;> rename_i h1
    · subst h1; rw [parseStringBody.eq_def]; simp [escMap, ih]
    split <;> rename_i h2
    · subst h2; rw [parseStringBody.eq_def]; simp [escMap, ih]
    split <;> rename_i h3
    · subst h3; rw [parseStringBody.eq_def]; simp [escMap, ih]
    split <;> rename_i h4
    · subst h4; rw [parseStringBody.eq_def]; simp [escMap, ih]
    split <;> rename_i h5
    · subst h5; rw [parseStringBody.eq_def]; simp [escMap, ih]
    split <;> rename_i h6
    · subst h6; rw [parseStringBody.eq_def]; simp [escMap, ih]
    split <;> rename_i h7
    · subst h7; rw [parseStringBody.eq_def]; simp [escMap, ih]
    split <;> rename_i h8
    · rw [parseStringBody.eq_def]
      have hv1 : hexVal (hexDigit (c.toNat / 16)) = some (c.toNat / 16) :=
        hexVal_hexDigit _ (by omega)
      have hv2 : hexVal (hexDigit (c.toNat % 16)) = some (c.toNat % 16) :=
        hexVal_hexDigit _ (by omega)
      have hns : ¬ (0xD800 ≤ c.toNat / 16 * 16 + c.toNat % 16
          ∧ c.toNat / 16 * 16 + c.toNat % 16 ≤ 0xDFFF) := by omega
      have hval : c.toNat / 16 * 16 + c.toNat % 16 = c.toNat := by omega
      have hz : hexVal '0' = some 0 := by decide
      simp [hz, hv1, hv2, hns, hval, Char.ofNat_toNat, ih]
      omega
    · rw [parseStringBody.eq_def]
      simp [h1, h2, h8, ih]


theorem parseValue_str (s : String) (rest : List Char) (fuel : Nat) :
    parseValue (fuel + 1) (stringifyStr s ++ rest) = some (.str s, rest) := by
  rw [stringifyStr, parseValue]
  rw [List.cons_append, skipWs_cons _ _ (by decide)]
  rw [List.append_assoc]
  simp only [List.singleton_append]
  rw [if_neg (by decide), if_neg (by decide), if_neg (by decide), if_pos trivial]
  rw [parseStringBody_escape]
  rfl

/-- Association list whose values are all strings, as JSON members. -/
def strMembers (fs : List (String × String)) : List (String × Json) :=
  fs.map fun kv => (kv.1, .str kv.2)

theorem parseMembers_strBody :
    ∀ (fs : List (String × String)) (fuel : Nat) (rest : List Char),
      fs ≠ [] → fs.length + 1 ≤ fuel →
      parseMembers fuel (stringifyObjBody (strMembers fs) ++ rest) =
        some (strMembers fs, rest) := by
  intro fs
  induction fs with
  | nil => intro fuel rest h; exact absurd rfl h
  | cons kv tail ih =>
    intro fuel rest _ hfuel
    simp only [List.length_cons] at hfuel
    obtain ⟨f, rfl⟩ : ∃ f, fuel = f + 1 := ⟨fuel - 1, by omega⟩
    obtain ⟨k, v⟩ := kv
    cases tail with
    | nil =>
      rw [show strMembers [(k, v)] = [(k, .str v)] from rfl, stringifyObjBody]
      rw [parseMembers]
      rw [stringifyStr]
      rw [List.cons_append, List.cons_append, skipWs_cons _ _ (by decide)]
      dsimp only
      rw [if_pos rfl]
      rw [List.append_assoc, List.append_assoc]
      simp only [List.singleton_append, List.cons_append]
      rw [parseStringBody_escape]
      simp only [Option.some_bind, List.nil_append]
      rw [skipWs_cons _ _ (by decide)]
      dsimp only
      rw [if_pos rfl]
      obtain ⟨f2, rfl⟩ : ∃ f2, f = f2 + 1 := ⟨f - 1, by simp at hfuel; omega⟩
      rw [show stringifyJson (.str v) = stringifyStr v from rfl]
      rw [List.append_assoc, List.singleton_append]
      rw [parseValue_str]
      simp only [Option.some_bind]
      rw [skipWs_cons _ _ (by decide)]
      dsimp only
      rw [if_neg (by decide), if_pos rfl]
    | cons kv2 tail2 =>
      rw [show strMembers ((k, v) :: kv2 :: tail2) =
        (k, .str v) :: strMembers (kv2 :: tail2) from rfl]
      have hob : stringifyObjBody ((k, .str v) :: strMembers (kv2 :: tail2)) =
          stringifyStr k ++ ':' :: (stringifyJson (.str v) ++ ',' ::
            stringifyObjBody (strMembers (kv2 :: tail2))) := by
        rw [show strMembers (kv2 :: tail2) = (kv2.1, .str kv2.2) :: strMembers tail2 from rfl]
        rw [stringifyObjBody]
        exact List.cons_ne_nil _ _
      rw [hob]
      rw [parseMembers]
      rw [stringifyStr]
      rw [List.cons_append, List.cons_append, skipWs_cons _ _ (by decide)]
      dsimp only
      rw [if_pos rfl]
      rw [List.append_assoc, List.append_assoc]
      simp only [List.singleton_append, List.cons_append]
      rw [parseStringBody_escape]
      simp only [Option.some_bind, List.nil_append]
      rw [skipWs_cons _ _ (by decide)]
      dsimp only
      rw [if_pos rfl]
      obtain ⟨f2, rfl⟩ : ∃ f2, f = f2 + 1 := ⟨f - 1, by omega⟩
      rw [show stringifyJson (.str v) = stringifyStr v from rfl]
      rw [List.append_assoc, List.cons_append]
      rw [parseValue_str]
      simp only [Option.some_bind]
      rw [skipWs_cons _ _ (by decide)]
      dsimp only
      rw [if_pos rfl]
      rw [ih (f2 + 1) rest (List.cons_ne_nil _ _) (by simp only [List.length_cons] at hfuel ⊢; omega)]
      rfl

theorem parseValue_strObj (fs : List (String × String)) (fuel : Nat) (rest : List Char)
    (hfuel : fs.length + 2 ≤ fuel) :
    parseValue fuel (stringifyJson (.obj (strMembers fs)) ++ rest) =
      some (.obj (strMembers fs), rest) := by
  obtain ⟨f, rfl⟩ : ∃ f, fuel = f + 1 := ⟨fuel - 1, by omega⟩
  rw [stringifyJson, parseValue]
  rw [List.cons_append, skipWs_cons _ _ (by decide)]
  dsimp only
  rw [if_neg (by decide), if_neg (by decide), if_neg (by decide), if_neg (by decide),
    if_neg (by decide), if_pos rfl]
  cases fs with
  | nil =>
    rw [show stringifyObjBody (strMembers []) = ['\x7d'] from rfl]
    rw [List.singleton_append, skipWs_cons _ _ (by decide)]
    dsimp only
    rw [if_pos rfl]
    rfl
  | cons kv tail =>
    have hstart : ∃ tl, stringifyObjBody (strMembers (kv :: tail)) = '"' :: tl := by
      cases tail with
      | nil => exact ⟨_, rfl⟩
      | cons kv2 tail2 => exact ⟨_, rfl⟩
    obtain ⟨tl, htl⟩ := hstart
    rw [htl, List.cons_append, skipWs_cons _ _ (by decide)]
    dsimp only
    rw [if_neg (by decide)]
    rw [← List.cons_append, ← htl]
    rw [parseMembers_strBody (kv :: tail) f rest (List.cons_ne_nil _ _)
      (by simp only [List.length_cons] at hfuel ⊢; omega)]
    rfl

/-- Values appearing in a serialised payment token: strings, or flat objects
of strings. -/
inductive TokVal where
  | vstr (s : String)
  | vobj (fs : List (String × String))

def tokValJson : TokVal → Json
  | .vstr s => .str s
  | .vobj fs => .obj (strMembers fs)

def tvMembers (fs : List (String × TokVal)) : List (String × Json) :=
  fs.map fun kv => (kv.1, tokValJson kv.2)

/-- Parser fuel sufficient for one token value. -/
def tokValFuel : TokVal → Nat
  | .vstr _ => 1
  | .vobj fs => fs.length + 2

/-- Parser fuel sufficient for a member list of token values. -/
def tvFuel : List (String × TokVal) → Nat
  | [] => 1
  | kv :: rest => 1 + tokValFuel kv.2 + tvFuel rest

theorem parseValue_tokVal (v : TokVal) (fuel : Nat) (rest : List Char)
    (hfuel : tokValFuel v ≤ fuel) :
    parseValue fuel (stringifyJson (tokValJson v) ++ rest) =
      some (tokValJson v, rest) := by
  cases v with
  | vstr s =>
    obtain ⟨f, rfl⟩ : ∃ f, fuel = f + 1 := ⟨fuel - 1, by simp [tokValFuel] at hfuel; omega⟩
    rw [show stringifyJson (tokValJson (.vstr s)) = stringifyStr s from rfl]
    exact parseValue_str s rest f
  | vobj fs =>
    exact parseValue_strObj fs fuel rest (by simpa [tokValFuel] using hfuel)

theorem parseMembers_tvBody :
    ∀ (fs : List (String × TokVal)) (fuel : Nat) (rest : List Char),
      fs ≠ [] → tvFuel fs ≤ fuel →
      parseMembers fuel (stringifyObjBody (tvMembers fs) ++ rest) =
        some (tvMembers fs, rest) := by
  intro fs
  induction fs with
  | nil => intro fuel rest h; exact absurd rfl h
  | cons kv tail ih =>
    intro fuel rest _ hfuel
    rw [tvFuel] at hfuel
    obtain ⟨f, rfl⟩ : ∃ f, fuel = f + 1 := ⟨fuel - 1, by omega⟩
    obtain ⟨k, v⟩ := kv
    dsimp only at hfuel
    cases tail with
    | nil =>
      rw [show tvMembers [(k, v)] = [(k, tokValJson v)] from rfl, stringifyObjBody]
      rw [parseMembers]
      rw [stringifyStr]
      rw [List.cons_append, List.cons_append, skipWs_cons _ _ (by decide)]
      dsimp only
      rw [if_pos rfl]
      rw [List.append_assoc, List.append_assoc]
      simp only [List.singleton_append, List.cons_append]
      rw [parseStringBody_escape]
      simp only [Option.some_bind, List.nil_append]
      rw [skipWs_cons _ _ (by decide)]
      dsimp only
      rw [if_pos rfl]
      rw [List.append_assoc, List.singleton_append]
      rw [parseValue_tokVal v f _ (by simp [tokValFuel] at hfuel ⊢; omega)]
      simp only [Option.some_bind]
      rw [skipWs_cons _ _ (by decide)]
      dsimp only
      rw [if_neg (by decide), if_pos rfl]
    | cons kv2 tail2 =>
      rw [show tvMembers ((k, v) :: kv2 :: tail2) =
        (k, tokValJson v) :: tvMembers (kv2 :: tail2) from rfl]
      have hob : stringifyObjBody ((k, tokValJson v) :: tvMembers (kv2 :: tail2)) =
          stringifyStr k ++ ':' :: (stringifyJson (tokValJson v) ++ ',' ::
            stringifyObjBody (tvMembers (kv2 :: tail2))) := by
        rw [show tvMembers (kv2 :: tail2) =
          (kv2.1, tokValJson kv2.2) :: tvMembers tail2 from rfl]
        rw [stringifyObjBody]
        exact List.cons_ne_nil _ _
      rw [hob]
      rw [parseMembers]
      rw [stringifyStr]
      rw [List.cons_append, List.cons_append, skipWs_cons _ _ (by decide)]
      dsimp only
      rw [if_pos rfl]
      rw [List.append_assoc, List.append_assoc]
      simp only [List.singleton_append, List.cons_append]
      rw [parseStringBody_escape]
      simp only [Option.some_bind, List.nil_append]
      rw [skipWs_cons _ _ (by decide)]
      dsimp only
      rw [if_pos rfl]
      rw [List.append_assoc, List.cons_append]
      rw [parseValue_tokVal v f _ (by omega)]
      simp only [Option.some_bind]
      rw [skipWs_cons _ _ (by decide)]
      dsimp only
      rw [if_pos rfl]
      rw [ih f rest (List.cons_ne_nil _ _) (by omega)]
      rfl

theorem parseValue_tvObj (fs : List (String × TokVal)) (fuel : Nat) (rest : List Char)
    (hne : fs ≠ []) (hfuel : tvFuel fs + 1 ≤ fuel) :
    parseValue fuel (stringifyJson (.obj (tvMembers fs)) ++ rest) =
      some (.obj (tvMembers fs), rest) := by
  obtain ⟨f, rfl⟩ : ∃ f, fuel = f + 1 := ⟨fuel - 1, by omega⟩
  rw [stringifyJson, parseValue]
  rw [List.cons_append, skipWs_cons _ _ (by decide)]
  dsimp only
  rw [if_neg (by decide), if_neg (by decide), if_neg (by decide), if_neg (by decide),
    if_neg (by decide), if_pos rfl]
  cases fs with
  | nil => exact absurd rfl hne
  | cons kv tail =>
    have hstart : ∃ tl, stringifyObjBody (tvMembers (kv :: tail)) = '"' :: tl := by
      cases tail with
      | nil => exact ⟨_, rfl⟩
      | cons kv2 tail2 => exact ⟨_, rfl⟩
    obtain ⟨tl, htl⟩ := hstart
    rw [htl, List.cons_append, skipWs_cons _ _ (by decide)]
    dsimp only
    rw [if_neg (by decide)]
    rw [← List.cons_append, ← htl]
    rw [parseMembers_tvBody (kv :: tail) f rest (List.cons_ne_nil _ _) (by omega)]
    rfl


/-! ## Domain data model (`src/types.ts` and the TRON token shape) -/

/-- Caller-declared payment constraints (`PaymentRequirements` in
`src/types.ts`). -/
structure PaymentRequirements where
  scheme : String
  network : String
  maxAmountRequired : String
  resource : String
  description : Option String := none
  mimeType : Option String := none
  payTo : String
  maxTimeoutSeconds : Option Nat := none
  asset : Option String := none
deriving DecidableEq, Repr

/-- Transfer payload of the TRON scheme (`TronTransferPayload`); `from_` and
`to_` render the source fields `from` and `to`, reserved words in Lean. -/
structure TronTransferPayload where
  from_ : String
  to_ : String
  value : String
  validAfter : String
  validBefore : String
  nonce : String
  tokenAddress : Option String := none
deriving DecidableEq, Repr

/-- Signature object of the TRON scheme (`TronSignature`): one opaque
signature string. -/
structure TronSignature where
  signature : String
deriving DecidableEq, Repr

/-- Structurally complete payment token (`TronPaymentToken`). -/
structure TronPaymentToken where
  scheme : String
  network : String
  payload : TronTransferPayload
  signature : TronSignature
deriving DecidableEq, Repr

/-- The JSON object a structurally complete payload serialises to (field
order as constructed; `tokenAddress` is omitted when absent, matching
`JSON.stringify` dropping `undefined` members). -/
def payloadToJson (p : TronTransferPayload) : Json :=
  .obj ([("from", .str p.from_), ("to", .str p.to_), ("value", .str p.value),
        ("validAfter", .str p.validAfter), ("validBefore", .str p.validBefore),
        ("nonce", .str p.nonce)] ++
        (match p.tokenAddress with
         | some ta => [("tokenAddress", Json.str ta)]
         | none => []))

/-- The JSON object a structurally complete token serialises to. -/
def tokenToJson (t : TronPaymentToken) : Json :=
  .obj [("scheme", .str t.scheme), ("network", .str t.network),
        ("payload", payloadToJson t.payload),
        ("signature", .obj [("signature", Json.str t.signature.signature)])]

/-- Embeds `TronX402Service.encodePaymentHeader`:
`Buffer.from(JSON.stringify(paymentToken)).toString("base64")`. -/
def encodePaymentHeader (paymentToken : TronPaymentToken) : String :=
  base64Encode (utf8Encode (String.mk (stringifyJson (tokenToJson paymentToken))))

/-- Request shape of `verify` (`VerifyRequest`). -/
structure VerifyRequest where
  paymentHeader : String
  paymentRequirements : PaymentRequirements
deriving DecidableEq, Repr

/-- Request shape of `settle` (`SettleRequest`). -/
structure SettleRequest where
  paymentHeader : String
  paymentRequirements : PaymentRequirements
deriving DecidableEq, Repr

/-- Result of `verify` (`TronVerifyResponse`): `payer` and `paymentToken`
carry the raw JavaScript values the code puts there. -/
structure TronVerifyResponse where
  isValid : Bool
  invalidReason : Option String := none
  payer : Option Json := none
  paymentToken : Option Json := none
deriving DecidableEq, Repr

/-- Result of `settle` (`SettleResponse`); `settledAmount` carries the raw
`payload.value` the code copies into it. -/
structure SettleResponse where
  success : Bool
  transactionHash : Option String := none
  network : String
  settledAmount : Option Json := none
  error : Option String := none
deriving DecidableEq, Repr

/-- Result object of `tronWeb.trx.sendTransaction`: `result` flag, optional
`txid`, optional `transaction.txID`. -/
structure NativeSendRes where
  result : Bool
  txid : Option String := none
  transactionTxID : Option String := none
deriving DecidableEq, Repr

/-- Environment oracle for everything outside the engine: wallet
availability, the clock, and the TronWeb chain client (signature recovery,
contract and native transaction submission, status polling by call index). -/
structure Env where
  walletConfigured : Bool
  now : Int
  sigRecover : String → Option Json → Except String String
  contractSend : Option Json → Option Json → Option Json → Except String String
  trc20Poll : Nat → Except String (Option (Option String))
  nativeSend : Option Json → Option Int → Except String NativeSendRes
  nativePoll : Nat → Except String Bool

/-- On-chain submissions the settlement engine dispatches. -/
inductive ChainAction where
  | contractTransfer (tokenAddress toAddr value : Option Json)
  | nativeTransfer (toAddr : Option Json) (amount : Option Int)
deriving DecidableEq, Repr

/-- Steps of a confirmation-polling loop. -/
inductive LoopAction where
  | sleep (ms : Nat)
  | query (attempt : Nat)
deriving DecidableEq, Repr

/-! ## Verification engine (`TronX402Service`) -/

/-- Template interpolation of a possibly-undefined string. -/
def jsTemplateStr : Option String → String
  | none => "undefined"
  | some s => s

/-- Template interpolation of a possibly-`NaN` number. -/
def jsNumTemplate : Option Int → String
  | none => "NaN"
  | some n => toString n

/-- Element rendering of `Array.prototype.join`: `undefined` and `null`
become empty strings. -/
def joinElemStr : Option Json → String
  | none => ""
  | some .null => ""
  | some j => jsToString j

/-- Join with the `"|"` delimiter. -/
def joinPipe : List (Option Json) → String
  | [] => ""
  | [x] => joinElemStr x
  | x :: rest => joinElemStr x ++ "|" ++ joinPipe rest

/-- Embeds `TronX402Service.buildSignatureMessage` applied to the raw
payload value: reads the six ordered fields (throwing if the payload itself
is `undefined`/`null`), appends `tokenAddress` when truthy, joins with
`"|"`. -/
def buildSignatureMessage (payload : Option Json) : Except String String := do
  let f ← jsAccess payload "from"
  let t ← jsAccess payload "to"
  let v ← jsAccess payload "value"
  let va ← jsAccess payload "validAfter"
  let vb ← jsAccess payload "validBefore"
  let n ← jsAccess payload "nonce"
  let ta ← jsAccess payload "tokenAddress"
  let parts := [f, t, v, va, vb, n] ++ (if truthyOpt ta then [ta] else [])
  pure (joinPipe parts)

/-- Application of `normalizeAddress` to a raw JavaScript value: on a
non-string both the `startsWith` call and the catch-block `toLowerCase`
throw a `TypeError`. -/
def normalizeAddressJs : Option Json → Except String String
  | some (.str s) => .ok (normalizeAddress s)
  | v => .error ("address.toLowerCase is not a function: " ++ jsTemplate v)

/-- Embeds `TronX402Service.verifyTronSignature`: build the signing message,
recover the signer via the chain client, compare normalized addresses; any
exception in the block is caught and reported as a verification error. -/
def verifyTronSignature (payload signature : Option Json) (env : Env) :
    Bool × Option String :=
  let attempt : Except String (Bool × Option String) := do
    let message ← buildSignatureMessage payload
    let messageHex := jsToHexStr message
    let sigVal ← jsAccess signature "signature"
    let recovered ← env.sigRecover messageHex sigVal
    let normalizedRecovered := normalizeAddress recovered
    let fromVal ← jsAccess payload "from"
    let normalizedFrom ← normalizeAddressJs fromVal
    if normalizedRecovered ≠ normalizedFrom then
      pure (false, some ("Signature verification failed: recovered " ++ recovered
        ++ ", expected " ++ jsTemplate fromVal))
    else
      pure (true, none)
  match attempt with
  | .ok r => r
  | .error e => (false, some ("Signature verification error: " ++ e))

/-- Tail of `TronX402Service.verify` after the scheme, network and
signature checks: amount sufficiency via `BigInt`, recipient comparison via
normalized addresses, time window via `parseInt` against the clock, then
the success result echoing the raw token `j`.  `Except.error` models an
exception escaping `verify` (nothing in this section is wrapped in a
try/catch in the source, so `BigInt`/`toLowerCase` failures propagate). -/
def verifyTail (payload : Option Json) (j : Json) (paymentRequirements : PaymentRequirements)
    (env : Env) : Except String TronVerifyResponse :=
  match jsAccess payload "value" with
  | .error e => .error e
  | .ok paymentValue =>
    match jsBigIntOfValue paymentValue with
    | .error e => .error e
    | .ok paymentAmount =>
      match jsStringToBigInt paymentRequirements.maxAmountRequired with
      | .error e => .error e
      | .ok requiredAmount =>
        if paymentAmount < requiredAmount then
          .ok { isValid := false,
                invalidReason := some ("Insufficient payment: required "
                  ++ toString requiredAmount ++ ", got " ++ toString paymentAmount) }
        else
          match jsAccess payload "to" with
          | .error e => .error e
          | .ok payloadTo =>
            match normalizeAddressJs payloadTo with
            | .error e => .error e
            | .ok normalizedPayloadTo =>
              if normalizedPayloadTo ≠ normalizeAddress paymentRequirements.payTo then
                .ok { isValid := false,
                      invalidReason := some ("Recipient mismatch: expected "
                        ++ paymentRequirements.payTo ++ ", got " ++ jsTemplate payloadTo) }
              else
                match jsAccess payload "validAfter" with
                | .error e => .error e
                | .ok vaVal =>
                  match jsAccess payload "validBefore" with
                  | .error e => .error e
                  | .ok vbVal =>
                    if jsLtNum env.now (jsParseIntOfValue vaVal) then
                      .ok { isValid := false,
                            invalidReason := some ("Payment not yet valid: validAfter "
                              ++ jsNumTemplate (jsParseIntOfValue vaVal)
                              ++ ", current time " ++ toString env.now) }
                    else if jsGeNum env.now (jsParseIntOfValue vbVal) then
                      .ok { isValid := false,
                            invalidReason := some ("Payment expired: validBefore "
                              ++ jsNumTemplate (jsParseIntOfValue vbVal)
                              ++ ", current time " ++ toString env.now) }
                    else
                      match jsAccess payload "from" with
                      | .error e => .error e
                      | .ok payer =>
                        .ok { isValid := true, payer := payer, paymentToken := some j }

/-- Embeds `TronX402Service.verify`: decode the header, then the ordered
checks — scheme, network, signature (for the `tron-transfer` scheme), and
the `verifyTail` section. -/
def verify (request : VerifyRequest) (env : Env) : Except String TronVerifyResponse :=
  let paymentRequirements := request.paymentRequirements
  match parsePaymentHeader request.paymentHeader with
  | none =>
    .ok { isValid := false,
          invalidReason := some "Invalid payment header format - unable to decode" }
  | some j =>
    if !truthy j then
      .ok { isValid := false,
            invalidReason := some "Invalid payment header format - unable to decode" }
    else if jsGet j "scheme" ≠ some (.str paymentRequirements.scheme) then
      .ok { isValid := false,
            invalidReason := some ("Scheme mismatch: expected " ++ paymentRequirements.scheme
              ++ ", got " ++ jsTemplate (jsGet j "scheme")) }
    else if jsGet j "network" ≠ some (.str paymentRequirements.network) then
      .ok { isValid := false,
            invalidReason := some ("Network mismatch: expected " ++ paymentRequirements.network
              ++ ", got " ++ jsTemplate (jsGet j "network")) }
    else
      let payload := jsGet j "payload"
      let signature := jsGet j "signature"
      let sigShortCircuit : Option (Option String) :=
        if jsGet j "scheme" = some (.str "tron-transfer") then
          match verifyTronSignature payload signature env with
          | (false, reason) => some reason
          | (true, _) => none
        else none
      match sigShortCircuit with
      | some reason => .ok { isValid := false, invalidReason := reason }
      | none => verifyTail payload j paymentRequirements env

/-! ## Settlement engine (`TronSettlementService`) -/

/-- Fixed confirmation polling interval (`await this.delay(2000)`). -/
def pollIntervalMs : Nat := 2000

/-- Fixed confirmation attempt budget (`const maxAttempts = 30`). -/
def maxAttempts : Nat := 30

/-- Terminal states of the TRC20 confirmation loop. -/
inductive Trc20LoopExit where
  | confirmedOk
  | failedReceipt (result : String)
  | timeout
deriving DecidableEq, Repr

/-- Embeds the TRC20 confirmation `while` loop of
`executeTRC20Settlement`, descending on remaining attempts (`fuel` starts at
`maxAttempts`; the poll index is the number of completed no-receipt
iterations).  Each iteration sleeps `pollIntervalMs` then queries
`getTransactionInfo`; a receipt with result `SUCCESS` confirms, a receipt
with any other truthy result is a settlement failure, a receipt with a
falsy result breaks to the timeout return, no receipt consumes an attempt,
and a thrown query error propagates (rethrown by the inner catch). -/
def trc20ConfirmLoop (poll : Nat → Except String (Option (Option String))) :
    Nat → Except String Trc20LoopExit × List LoopAction
  | 0 => (.ok .timeout, [])
  | fuel + 1 =>
    let attempt := maxAttempts - (fuel + 1)
    match poll attempt with
    | .error e => (.error e, [.sleep pollIntervalMs, .query attempt])
    | .ok (some result) =>
      (match result with
       | some s =>
         if s = "SUCCESS" then (.ok .confirmedOk, [.sleep pollIntervalMs, .query attempt])
         else if s ≠ "" then
           (.ok (.failedReceipt s), [.sleep pollIntervalMs, .query attempt])
         else (.ok .timeout, [.sleep pollIntervalMs, .query attempt])
       | none => (.ok .timeout, [.sleep pollIntervalMs, .query attempt]))
    | .ok none =>
      let next := trc20ConfirmLoop poll fuel
      (next.1, .sleep pollIntervalMs :: .query attempt :: next.2)

/-- Embeds the native-TRX confirmation `while` loop of
`executeTRXSettlement`: confirmation is only "transaction info became
non-empty". -/
def nativeConfirmLoop (poll : Nat → Except String Bool) :
    Nat → Except String Bool × List LoopAction
  | 0 => (.ok false, [])
  | fuel + 1 =>
    let attempt := maxAttempts - (fuel + 1)
    match poll attempt with
    | .error e => (.error e, [.sleep pollIntervalMs, .query attempt])
    | .ok true => (.ok true, [.sleep pollIntervalMs, .query attempt])
    | .ok false =>
      let next := nativeConfirmLoop poll fuel
      (next.1, .sleep pollIntervalMs :: .query attempt :: next.2)

/-- Embeds `TronSettlementService.executeTRC20Settlement`: check
`tokenAddress`, submit the contract transfer (recording the submission),
then run the confirmation loop.  `Except.error` models the exception the
inner `catch` rethrows into `settle`. -/
def executeTRC20Settlement (paymentToken : Json) (network : String) (env : Env) :
    Except String SettleResponse × List ChainAction :=
  let payload := jsGet paymentToken "payload"
  match jsAccess payload "tokenAddress" with
  | .error e => (.error e, [])
  | .ok ta =>
    if !truthyOpt ta then
      (.ok { success := false, network := network,
             error := some "TRC20 token address not specified" }, [])
    else
      match jsAccess payload "to", jsAccess payload "value" with
      | .ok toVal, .ok valueVal =>
        let act := ChainAction.contractTransfer ta toVal valueVal
        (match env.contractSend ta toVal valueVal with
         | .error e => (.error e, [act])
         | .ok tx =>
           match (trc20ConfirmLoop env.trc20Poll maxAttempts).1 with
           | .error e => (.error e, [act])
           | .ok .confirmedOk =>
             (.ok { success := true, network := network, transactionHash := some tx,
                    settledAmount := valueVal }, [act])
           | .ok (.failedReceipt r) =>
             (.ok { success := false, network := network, transactionHash := some tx,
                    error := some ("Transaction failed: " ++ r) }, [act])
           | .ok .timeout =>
             (.ok { success := false, network := network, transactionHash := some tx,
                    error := some "Transaction confirmation timeout" }, [act]))
      | .error e, _ => (.error e, [])
      | _, .error e => (.error e, [])

/-- Embeds `TronSettlementService.executeTRXSettlement`: submit the native
transfer with `parseInt(payload.value, 10)` as the amount (recording the
submission), then run the native confirmation loop. -/
def executeTRXSettlement (paymentToken : Json) (network : String) (env : Env) :
    Except String SettleResponse × List ChainAction :=
  let payload := jsGet paymentToken "payload"
  match jsAccess payload "to", jsAccess payload "value" with
  | .ok toVal, .ok valueVal =>
    let amount := jsParseIntOfValue valueVal
    let act := ChainAction.nativeTransfer toVal amount
    (match env.nativeSend toVal amount with
     | .error e => (.error e, [act])
     | .ok tx =>
       if !tx.result then
         (.ok { success := false, network := network,
                error := some "Transaction creation failed" }, [act])
       else
         let txId := jsOrStr tx.txid tx.transactionTxID
         match (nativeConfirmLoop env.nativePoll maxAttempts).1 with
         | .error e => (.error e, [act])
         | .ok true =>
           (.ok { success := true, network := network, transactionHash := txId,
                  settledAmount := valueVal }, [act])
         | .ok false =>
           (.ok { success := false, network := network, transactionHash := txId,
                  error := some "Transaction confirmation timeout" }, [act]))
  | .error e, _ => (.error e, [])
  | _, .error e => (.error e, [])

/-- Embeds `TronSettlementService.settle`: wallet availability check,
header decode, full re-verification, then dispatch by `tokenAddress`
presence; the surrounding try/catch converts any exception thrown from the
dispatch block into a failure result (with no transaction hash).  A thrown
verification exception escapes `settle` itself (the `verify` call sits
outside the try block). -/
def settle (request : SettleRequest) (env : Env) :
    Except String SettleResponse × List ChainAction :=
  let paymentRequirements := request.paymentRequirements
  if !env.walletConfigured then
    (.ok { success := false, network := paymentRequirements.network,
           error := some "TRON settlement service unavailable - wallet not configured" }, [])
  else
    match parsePaymentHeader request.paymentHeader with
    | none =>
      (.ok { success := false, network := paymentRequirements.network,
             error := some "Invalid payment header format" }, [])
    | some j =>
      if !truthy j then
        (.ok { success := false, network := paymentRequirements.network,
               error := some "Invalid payment header format" }, [])
      else
        match verify ⟨request.paymentHeader, paymentRequirements⟩ env with
        | .error e => (.error e, [])
        | .ok verification =>
          if !verification.isValid then
            (.ok { success := false, network := paymentRequirements.network,
                   error := some ("Verification failed: "
                     ++ jsTemplateStr verification.invalidReason) }, [])
          else if jsGet j "scheme" = some (.str "tron-transfer") then
            match jsAccess (jsGet j "payload") "tokenAddress" with
            | .error e =>
              (.ok { success := false, network := paymentRequirements.network,
                     error := some e }, [])
            | .ok ta =>
              if truthyOpt ta then
                match executeTRC20Settlement j paymentRequirements.network env with
                | (.error e, acts) =>
                  (.ok { success := false, network := paymentRequirements.network,
                         error := some e }, acts)
                | (.ok r, acts) => (.ok r, acts)
              else
                match executeTRXSettlement j paymentRequirements.network env with
                | (.error e, acts) =>
                  (.ok { success := false, network := paymentRequirements.network,
                         error := some e }, acts)
                | (.ok r, acts) => (.ok r, acts)
          else
            (.ok { success := false, network := paymentRequirements.network,
                   error := some ("Unsupported TRON payment scheme: "
                     ++ jsTemplate (jsGet j "scheme")) }, [])

/-! ## Token round-trip -/

/-- String-valued member list of a structured transfer payload. -/
def payloadFields (p : TronTransferPayload) : List (String × String) :=
  [("from", p.from_), ("to", p.to_), ("value", p.value), ("validAfter", p.validAfter),
    ("validBefore", p.validBefore), ("nonce", p.nonce)] ++
    (match p.tokenAddress with
     | some ta => [("tokenAddress", ta)]
     | none => [])

/-- Token-value member list of a structured payment token. -/
def tokenTv (t : TronPaymentToken) : List (String × TokVal) :=
  [("scheme", .vstr t.scheme), ("network", .vstr t.network),
    ("payload", .vobj (payloadFields t.payload)),
    ("signature", .vobj [("signature", t.signature.signature)])]

theorem tokenToJson_eq_tv (t : TronPaymentToken) :
    tokenToJson t = .obj (tvMembers (tokenTv t)) := by
  rw [tokenToJson, tokenTv, payloadToJson]
  cases h : t.payload.tokenAddress <;>
    simp [tvMembers, tokValJson, strMembers, payloadFields, h]

theorem tvFuel_tokenTv (t : TronPaymentToken) : tvFuel (tokenTv t) ≤ 20 := by
  rw [tokenTv]
  simp only [tvFuel, tokValFuel, payloadFields]
  cases t.payload.tokenAddress <;> simp

theorem jsonParse_token (t : TronPaymentToken) :
    jsonParse (String.mk (stringifyJson (tokenToJson t))) = some (tokenToJson t) := by
  rw [jsonParse]
  have hdata : (String.mk (stringifyJson (tokenToJson t))).data
      = stringifyJson (tokenToJson t) := rfl
  rw [hdata]
  have hlen : (String.mk (stringifyJson (tokenToJson t))).length + 64
      = (stringifyJson (tokenToJson t)).length + 64 := rfl
  rw [hlen]
  have hparse := parseValue_tvObj (tokenTv t) ((stringifyJson (tokenToJson t)).length + 64) []
    (by rw [tokenTv]; exact List.cons_ne_nil _ _)
    (by have := tvFuel_tokenTv t; omega)
  rw [← tokenToJson_eq_tv] at hparse
  rw [List.append_nil] at hparse
  rw [hparse]
  rfl

theorem parsePaymentHeader_encode (t : TronPaymentToken) :
    parsePaymentHeader (encodePaymentHeader t) = some (tokenToJson t) := by
  rw [parsePaymentHeader, encodePaymentHeader, base64Encode]
  have hdata : (String.mk (base64EncodeList
      (utf8Encode (String.mk (stringifyJson (tokenToJson t)))))).data
      = base64EncodeList (utf8Encode (String.mk (stringifyJson (tokenToJson t)))) := rfl
  rw [hdata]
  rw [base64DecodeList_encodeList (utf8Encode (String.mk (stringifyJson (tokenToJson t))))
    (utf8EncodeList_lt _)]
  rw [utf8DecodeStr_encode]
  exact jsonParse_token t

set_option maxRecDepth 1000000

/-! ## Field-access lemmas for structured tokens -/

theorem jsGet_tokenToJson_scheme (t : TronPaymentToken) :
    jsGet (tokenToJson t) "scheme" = some (.str t.scheme) := by
  simp [tokenToJson, jsGet, jsObjFind]

theorem jsGet_tokenToJson_network (t : TronPaymentToken) :
    jsGet (tokenToJson t) "network" = some (.str t.network) := by
  simp [tokenToJson, jsGet, jsObjFind]

theorem jsGet_tokenToJson_payload (t : TronPaymentToken) :
    jsGet (tokenToJson t) "payload" = some (payloadToJson t.payload) := by
  simp [tokenToJson, jsGet, jsObjFind]

theorem jsGet_tokenToJson_signature (t : TronPaymentToken) :
    jsGet (tokenToJson t) "signature"
      = some (.obj [("signature", .str t.signature.signature)]) := by
  simp [tokenToJson, jsGet, jsObjFind]

theorem truthy_tokenToJson (t : TronPaymentToken) : truthy (tokenToJson t) = true := rfl

theorem jsGet_payloadToJson_to (p : TronTransferPayload) :
    jsGet (payloadToJson p) "to" = some (.str p.to_) := by
  cases h : p.tokenAddress <;> simp [payloadToJson, jsGet, jsObjFind, h]

theorem jsGet_payloadToJson_value (p : TronTransferPayload) :
    jsGet (payloadToJson p) "value" = some (.str p.value) := by
  cases h : p.tokenAddress <;> simp [payloadToJson, jsGet, jsObjFind, h]

theorem jsGet_payloadToJson_tokenAddress (p : TronTransferPayload) :
    jsGet (payloadToJson p) "tokenAddress" = p.tokenAddress.map Json.str := by
  cases h : p.tokenAddress <;> simp [payloadToJson, jsGet, jsObjFind, h]


/-! ## Concrete demonstration inputs -/

/-- Transfer payload used by the concrete scenarios. -/
def demoPayload : TronTransferPayload :=
  { from_ := "a", to_ := "b", value := "1000", validAfter := "0",
    validBefore := "9999999999", nonce := "n" }

/-- Structurally complete token over `demoPayload` with a non-TRON scheme. -/
def demoToken : TronPaymentToken :=
  { scheme := "exact", network := "tron-shasta", payload := demoPayload,
    signature := { signature := "s" } }

/-- Requirements matching `demoToken`. -/
def demoReqs : PaymentRequirements :=
  { scheme := "exact", network := "tron-shasta", maxAmountRequired := "1000",
    resource := "r", payTo := "b" }

/-- Benign environment: wallet configured, clock inside the validity window,
signature recovery returning the payer, submissions succeeding. -/
def demoEnv : Env :=
  { walletConfigured := true, now := 50,
    sigRecover := fun _ _ => .ok "a",
    contractSend := fun _ _ _ => .ok "tx1",
    trc20Poll := fun _ => .ok none,
    nativeSend := fun _ _ => .ok { result := true, txid := some "t1" },
    nativePoll := fun _ => .ok true }

/-! ## Claims -/

/-- C9: for every structurally valid PaymentToken `t`, decoding the string
produced by encoding `t` yields exactly `t`:
`parsePaymentHeader (encodePaymentHeader t)` returns the JSON image of `t`,
and that image determines `t` uniquely (round-trip law). -/
theorem claim_C9_roundtrip (t : TronPaymentToken) :
    parsePaymentHeader (encodePaymentHeader t) = some (tokenToJson t) ∧
    ∀ t2 : TronPaymentToken, tokenToJson t2 = tokenToJson t → t2 = t := by
  refine ⟨parsePaymentHeader_encode t, ?_⟩
  intro t2 h
  obtain ⟨s1, n1, ⟨f1, o1, v1, a1, b1, c1, ta1⟩, ⟨g1⟩⟩ := t
  obtain ⟨s2, n2, ⟨f2, o2, v2, a2, b2, c2, ta2⟩, ⟨g2⟩⟩ := t2
  cases ta1 <;> cases ta2 <;> simp_all [tokenToJson, payloadToJson]

/-- C3 counterexample: the header `"e30="` (Base64 of the JSON text of the
empty object) decodes to a structurally incomplete object — it lacks
`scheme`, `network`, `payload` and `signature` — yet `parsePaymentHeader`
returns it rather than `null`, contradicting the claim. -/
theorem claim_C3_counterexample :
    parsePaymentHeader "e30=" = some (Json.obj []) ∧
    parsePaymentHeader "e30=" ≠ none ∧
    jsGet (Json.obj []) "scheme" = none ∧
    jsGet (Json.obj []) "network" = none ∧
    jsGet (Json.obj []) "payload" = none ∧
    jsGet (Json.obj []) "signature" = none := by decide

theorem b64Sextets_skip (c : Char) (hv : b64Value c = none) (hne : c ≠ '=') :
    ∀ s t : List Char, b64Sextets (s ++ c :: t) = b64Sextets (s ++ t) := by
  intro s
  induction s with
  | nil =>
    intro t
    rw [List.nil_append, List.nil_append, b64Sextets, if_neg hne, hv]
  | cons a s ih =>
    intro t
    rw [List.cons_append, List.cons_append, b64Sextets, b64Sextets]
    by_cases ha : a = '='
    · rw [if_pos ha, if_pos ha]
    · rw [if_neg ha, if_neg ha]
      cases hb : b64Value a with
      | none => dsimp only; exact ih t
      | some v => dsimp only; rw [ih]

theorem parsePaymentHeader_skip (c : Char) (hv : b64Value c = none) (hne : c ≠ '=')
    (s t : List Char) :
    parsePaymentHeader (String.mk (s ++ c :: t))
      = parsePaymentHeader (String.mk (s ++ t)) := by
  rw [parsePaymentHeader, parsePaymentHeader]
  rw [show (String.mk (s ++ c :: t)).data = s ++ c :: t from rfl,
    show (String.mk (s ++ t)).data = s ++ t from rfl]
  rw [base64DecodeList, base64DecodeList, b64Sextets_skip c hv hne s t]

theorem stringifyObjBody_strMembers_len (fs : List (String × String)) :
    fs.length ≤ (stringifyObjBody (strMembers fs)).length := by
  induction fs with
  | nil => simp [strMembers, stringifyObjBody]
  | cons kv tail ih =>
    cases tail with
    | nil => simp [strMembers, stringifyObjBody, stringifyStr]
    | cons kv2 tail2 =>
      have hob : stringifyObjBody (strMembers (kv :: kv2 :: tail2)) =
          stringifyStr kv.1 ++ ':' :: (stringifyJson (.str kv.2) ++ ',' ::
            stringifyObjBody (strMembers (kv2 :: tail2))) := by
        rw [show strMembers (kv :: kv2 :: tail2) =
          (kv.1, .str kv.2) :: strMembers (kv2 :: tail2) from rfl]
        rw [show strMembers (kv2 :: tail2) =
          (kv2.1, .str kv2.2) :: strMembers tail2 from rfl]
        rw [stringifyObjBody]
        exact List.cons_ne_nil _ _
      rw [hob]
      simp only [List.length_append, List.length_cons] at ih ⊢
      omega

theorem jsonParse_strObj (fs : List (String × String)) :
    jsonParse (String.mk (stringifyJson (.obj (strMembers fs)))) =
      some (.obj (strMembers fs)) := by
  rw [jsonParse]
  rw [show (String.mk (stringifyJson (.obj (strMembers fs)))).data
    = stringifyJson (.obj (strMembers fs)) from rfl]
  rw [show (String.mk (stringifyJson (.obj (strMembers fs)))).length
    = (stringifyJson (.obj (strMembers fs))).length from rfl]
  have hfuel : fs.length + 2 ≤ (stringifyJson (.obj (strMembers fs))).length + 64 := by
    have hlen := stringifyObjBody_strMembers_len fs
    rw [stringifyJson]
    simp only [List.length_cons]
    omega
  have hparse := parseValue_strObj fs ((stringifyJson (.obj (strMembers fs))).length + 64)
    [] hfuel
  rw [List.append_nil] at hparse
  rw [hparse]
  rfl

theorem parsePaymentHeader_strObj (fs : List (String × String)) :
    parsePaymentHeader (base64Encode (utf8Encode
        (String.mk (stringifyJson (.obj (strMembers fs)))))) =
      some (.obj (strMembers fs)) := by
  rw [parsePaymentHeader, base64Encode]
  rw [show (String.mk (base64EncodeList (utf8Encode
      (String.mk (stringifyJson (.obj (strMembers fs))))))).data
    = base64EncodeList (utf8Encode (String.mk (stringifyJson (.obj (strMembers fs)))))
    from rfl]
  rw [base64DecodeList_encodeList
    (utf8Encode (String.mk (stringifyJson (.obj (strMembers fs))))) (utf8EncodeList_lt _)]
  rw [utf8DecodeStr_encode]
  exact jsonParse_strObj fs

/-- C3 amended: the decoder never rejects for Base64 malformation —
inserting any character outside the Base64 alphabet (other than the
terminator `'='`) anywhere in a header leaves the decoded result unchanged
— and it performs no structural validation: every header encoding a JSON
object of string fields decodes to exactly that object, whatever fields it
has or lacks.  Concretely, the malformed `"e%30="` decodes to the empty
object just like `"e30="`, the numeral header `"MS41"` (the text `1.5`)
decodes to the number `1.5` (the double `3 * 2^-1`) rather than being
rejected, and `null` arises only from a `JSON.parse` failure, e.g. on
`"ew=="` (the lone byte `\x7b`). -/
theorem claim_C3_decode_lenient :
    (∀ (s t : List Char) (c : Char), b64Value c = none → c ≠ '=' →
      parsePaymentHeader (String.mk (s ++ c :: t))
        = parsePaymentHeader (String.mk (s ++ t))) ∧
    (∀ fs : List (String × String),
      parsePaymentHeader (base64Encode (utf8Encode
          (String.mk (stringifyJson (.obj (strMembers fs))))))
        = some (.obj (strMembers fs))) ∧
    parsePaymentHeader "e%30=" = some (.obj []) ∧
    parsePaymentHeader "MS41" = some (.numd 3 (-1)) ∧
    parsePaymentHeader "ew==" = none := by
  refine ⟨fun s t c hv hne => parsePaymentHeader_skip c hv hne s t,
    parsePaymentHeader_strObj, by decide, by decide, by decide⟩

/-- C3 witness: the Base64-malformation invariance applied at `"e%30="`
(skipping the `'%'`), and the no-validation round-trip applied at a
one-field object lacking all four token fields. -/
theorem claim_C3_decode_lenient_witness :
    parsePaymentHeader "e%30=" = parsePaymentHeader "e30=" ∧
    parsePaymentHeader (base64Encode (utf8Encode
        (String.mk (stringifyJson (.obj [("a", .str "b")])))))
      = some (.obj [("a", .str "b")]) :=
  ⟨claim_C3_decode_lenient.1 ['e'] ['3', '0', '='] '%' (by decide) (by decide),
   claim_C3_decode_lenient.2.1 [("a", "b")]⟩

/-- Token whose payload value is `2^53 + 1`, one beyond exact double
precision. -/
def c4Payload : TronTransferPayload :=
  { demoPayload with value := "9007199254740993", validBefore := "99999999999" }

/-- Token carrying `c4Payload`. -/
def c4Token : TronPaymentToken :=
  { scheme := "tron-transfer", network := "tron-nile", payload := c4Payload,
    signature := { signature := "s" } }

/-- C4, failing input: the native settlement path parses the payload value
with `parseInt`, a double-precision conversion, and submits
`9007199254740992` sun for a payload (and verified, and reported
`settledAmount`) value of `9007199254740993` — while `BigInt` conversion,
as used by verify, is exact.  The claim that both settlement paths use
arbitrary-precision parsing fails on the code. -/
theorem claim_C4_native_parseint_rounds :
    executeTRXSettlement (tokenToJson c4Token) "tron-nile" demoEnv =
      (.ok { success := true, network := "tron-nile", transactionHash := some "t1",
             settledAmount := some (.str "9007199254740993") },
       [ChainAction.nativeTransfer (some (.str "b")) (some 9007199254740992)]) ∧
    jsBigIntOfValue (some (.str "9007199254740993")) = .ok 9007199254740993 ∧
    (9007199254740992 : Int) ≠ 9007199254740993 :=
  ⟨by decide, by decide, by decide⟩

/-- Token whose payload value is not numeric. -/
def c2Token : TronPaymentToken :=
  { demoToken with payload := { demoPayload with value := "abc" } }

/-- C2, failing input: a header that decodes to a well-formed token whose
`value` is the non-numeric string `"abc"`, with scheme and network
matching, makes `verify` throw (the uncaught `BigInt` conversion error)
instead of returning a structured invalid result; a header lacking token
fields entirely (the empty object) is, by contrast, recovered into a
structured scheme-mismatch result. -/
theorem claim_C2_verify_throws :
    verify ⟨encodePaymentHeader c2Token, demoReqs⟩ demoEnv =
      .error "Cannot convert abc to a BigInt" ∧
    verify ⟨"e30=", demoReqs⟩ demoEnv =
      .ok { isValid := false,
            invalidReason := some "Scheme mismatch: expected exact, got undefined" } :=
  ⟨by decide, by decide⟩

/-- TRC20 token: `tron-transfer` scheme with a token contract address. -/
def c7Token : TronPaymentToken :=
  { scheme := "tron-transfer", network := "tron-shasta",
    payload := { demoPayload with tokenAddress := some "TK" },
    signature := { signature := "s" } }

/-- Requirements matching `c7Token`. -/
def c7Reqs : PaymentRequirements := { demoReqs with scheme := "tron-transfer" }

/-- Environment whose first status poll throws. -/
def c7Env : Env := { demoEnv with trc20Poll := fun _ => .error "RPC connection lost" }

/-- C7 counterexample: with the contract transfer submitted (the submission
is recorded in the action trace), an exception thrown during the first
confirmation poll reaches settle's catch-all, which returns a failure
result with `transactionHash` absent — the transaction identifier is
dropped from a post-submission failure, contradicting the claim. -/
theorem claim_C7_counterexample :
    settle ⟨encodePaymentHeader c7Token, c7Reqs⟩ c7Env =
      (.ok { success := false, network := "tron-shasta", transactionHash := none,
             settledAmount := none, error := some "RPC connection lost" },
       [ChainAction.contractTransfer (some (.str "TK")) (some (.str "b"))
          (some (.str "1000"))]) := by decide

/-- Same token as `demoToken` but for the signature string. -/
def c10Token2 : TronPaymentToken := { demoToken with signature := { signature := "s2" } }

/-- C10 counterexample: for a scheme equal to the requirements but different
from `tron-transfer`, two verify calls on tokens differing only in the
signature field do NOT return identical results: both validate, but the
echoed `paymentToken` of a valid result contains the signature, so the two
results differ. -/
theorem claim_C10_counterexample :
    c10Token2 = { demoToken with signature := { signature := "s2" } } ∧
    demoToken.scheme = demoReqs.scheme ∧
    demoToken.scheme ≠ "tron-transfer" ∧
    verify ⟨encodePaymentHeader demoToken, demoReqs⟩ demoEnv ≠
      verify ⟨encodePaymentHeader c10Token2, demoReqs⟩ demoEnv := by
  refine ⟨rfl, by decide, by decide, by decide⟩

/-- C6: for every structured token and requirements with differing schemes,
verify returns invalid with the scheme-mismatch reason, regardless of every
other token and requirement field and of the environment (the scheme check
is the first check after decoding and short-circuits all later checks). -/
theorem claim_C6_scheme_mismatch (t : TronPaymentToken) (R : PaymentRequirements) (env : Env)
    (h : t.scheme ≠ R.scheme) :
    verify ⟨encodePaymentHeader t, R⟩ env =
      .ok { isValid := false,
            invalidReason :=
              some ("Scheme mismatch: expected " ++ R.scheme ++ ", got " ++ t.scheme) } := by
  rw [verify]
  rw [parsePaymentHeader_encode]
  dsimp only
  rw [if_neg (by simp [truthy_tokenToJson])]
  rw [if_pos (by rw [jsGet_tokenToJson_scheme]; simp [h])]
  rw [jsGet_tokenToJson_scheme]
  rfl

/-- C6 witness: a concrete scheme mismatch. -/
theorem claim_C6_scheme_mismatch_witness :
    verify ⟨encodePaymentHeader demoToken, { demoReqs with scheme := "other" }⟩ demoEnv =
      .ok { isValid := false,
            invalidReason := some "Scheme mismatch: expected other, got exact" } := by
  rw [claim_C6_scheme_mismatch demoToken { demoReqs with scheme := "other" } demoEnv
    (by decide)]
  decide

/-- C5: `normalizeAddress` maps the base58 and hex encodings of one address
to the same canonical lower-case hex string, so a payload `to` in one
encoding and a requirement `payTo` in the other compare equal in the
recipient check of `verify` (which compares exactly these
`normalizeAddress` images).  The function itself is total — the source
catch block turns every conversion failure into plain lower-casing. -/
theorem claim_C5_address_encodings (b hexForm h : String)
    (hT : strStartsWith b "T" = true)
    (hhex : tronWebToHex b = some h)
    (hnT : strStartsWith hexForm "T" = false)
    (hlow : jsToLowerCase hexForm = jsToLowerCase h) :
    normalizeAddress b = normalizeAddress hexForm := by
  rw [normalizeAddress, normalizeAddress, if_pos hT, hhex, if_neg (by simp [hnT])]
  exact hlow.symm

/-- C5 witness: the mainnet USDT contract address in base58 and upper-case
hex form normalize identically. -/
theorem claim_C5_address_encodings_witness :
    normalizeAddress "TR7NHqjeKQxGTCi8q8ZY4pL8otSzgjLj6t"
      = normalizeAddress "41A614F803B6FD780986A42C78EC9C7F77E6DED13C" :=
  claim_C5_address_encodings _ _ "41a614f803b6fd780986a42c78ec9c7f77e6ded13c"
    (by decide) (by decide) (by decide) (by decide)

/-- Outcome components of a verify result: validity flag, reason, payer —
everything except the echoed raw token. -/
def verifyCore : Except String TronVerifyResponse →
    Except String (Bool × Option String × Option Json)
  | .ok r => .ok (r.isValid, r.invalidReason, r.payer)
  | .error e => .error e

theorem verifyCore_verifyTail (payload : Option Json) (j1 j2 : Json)
    (R : PaymentRequirements) (env : Env) :
    verifyCore (verifyTail payload j1 R env) = verifyCore (verifyTail payload j2 R env) := by
  rw [verifyTail, verifyTail]
  cases jsAccess payload "value" with
  | error e => rfl
  | ok v =>
    dsimp only
    cases jsBigIntOfValue v with
    | error e => rfl
    | ok pa =>
      dsimp only
      cases jsStringToBigInt R.maxAmountRequired with
      | error e => rfl
      | ok ra =>
        dsimp only
        by_cases hlt : pa < ra
        · simp only [if_pos hlt]
        · simp only [if_neg hlt]
          cases jsAccess payload "to" with
          | error e => rfl
          | ok pto =>
            dsimp only
            cases normalizeAddressJs pto with
            | error e => rfl
            | ok npt =>
              dsimp only
              by_cases hr : npt ≠ normalizeAddress R.payTo
              · simp only [if_pos hr]
              · simp only [if_neg hr]
                cases jsAccess payload "validAfter" with
                | error e => rfl
                | ok va =>
                  dsimp only
                  cases jsAccess payload "validBefore" with
                  | error e => rfl
                  | ok vb =>
                    dsimp only
                    by_cases hva : jsLtNum env.now (jsParseIntOfValue va) = true
                    · simp only [if_pos hva]
                    · simp only [if_neg hva]
                      by_cases hvb : jsGeNum env.now (jsParseIntOfValue vb) = true
                      · simp only [if_pos hvb]
                      · simp only [if_neg hvb]
                        cases jsAccess payload "from" with
                        | error e => rfl
                        | ok payer => rfl

/-- C10 amended: for schemes equal to the requirements but different from
`tron-transfer`, verify performs no signature verification — the validity
flag, reason and payer (and any thrown error) are independent of the
token's signature field; only the echoed `paymentToken` can differ. -/
theorem claim_C10_signature_ignored (t : TronPaymentToken) (sig : TronSignature)
    (R : PaymentRequirements) (env : Env)
    (hs : t.scheme = R.scheme) (hnt : t.scheme ≠ "tron-transfer") :
    verifyCore (verify ⟨encodePaymentHeader t, R⟩ env) =
      verifyCore (verify ⟨encodePaymentHeader { t with signature := sig }, R⟩ env) := by
  have hRnt : R.scheme ≠ "tron-transfer" := hs ▸ hnt
  rw [verify, verify, parsePaymentHeader_encode, parsePaymentHeader_encode]
  dsimp only
  have hsch1 : jsGet (tokenToJson t) "scheme" = some (.str R.scheme) := by
    rw [jsGet_tokenToJson_scheme, hs]
  have hsch2 : jsGet (tokenToJson { t with signature := sig }) "scheme"
      = some (.str R.scheme) := by
    rw [jsGet_tokenToJson_scheme]
    dsimp only
    rw [hs]
  have hnet1 : jsGet (tokenToJson t) "network" = some (.str t.network) :=
    jsGet_tokenToJson_network t
  have hnet2 : jsGet (tokenToJson { t with signature := sig }) "network"
      = some (.str t.network) := jsGet_tokenToJson_network _
  by_cases hn : t.network = R.network
  · rw [if_neg (by simp [truthy_tokenToJson])]
    rw [if_neg (by rw [hsch1]; simp)]
    rw [if_neg (by rw [hnet1]; simp [hn])]
    rw [if_neg (by rw [hsch1]; simp [hRnt])]
    rw [if_neg (by simp [truthy_tokenToJson])]
    rw [if_neg (by rw [hsch2]; simp)]
    rw [if_neg (by rw [hnet2]; simp [hn])]
    rw [if_neg (by rw [hsch2]; simp [hRnt])]
    dsimp only
    rw [jsGet_tokenToJson_payload, jsGet_tokenToJson_payload]
    exact verifyCore_verifyTail _ _ _ R env
  · rw [if_neg (by simp [truthy_tokenToJson])]
    rw [if_neg (by rw [hsch1]; simp)]
    rw [if_pos (by rw [hnet1]; simp [hn])]
    rw [if_neg (by simp [truthy_tokenToJson])]
    rw [if_neg (by rw [hsch2]; simp)]
    rw [if_pos (by rw [hnet2]; simp [hn])]
    rw [hnet1, hnet2]

/-- C10 witness: the amended statement at the concrete counterexample
tokens. -/
theorem claim_C10_signature_ignored_witness :
    verifyCore (verify ⟨encodePaymentHeader demoToken, demoReqs⟩ demoEnv) =
      verifyCore (verify ⟨encodePaymentHeader
        { demoToken with signature := { signature := "s2" } }, demoReqs⟩ demoEnv) :=
  claim_C10_signature_ignored demoToken { signature := "s2" } demoReqs demoEnv
    (by decide) (by decide)

/-- C1: the on-chain transfer is dispatched only if the independent re-run
of the verification pipeline inside `settle` returns valid (first
conjunct: a non-empty submission trace implies `verify` returned
`isValid = true` for this very request — no prior verify call is
consulted, `settle` is a pure function of the request); and whenever that
re-verification returns `isValid = false` (it runs once the wallet is
configured and the header decodes truthy), `settle` returns
`success = false` with the error string `"Verification failed: <reason>"`
and an empty submission trace. -/
theorem claim_C1_settle_reverifies (request : SettleRequest) (env : Env) :
    ((settle request env).2 ≠ [] →
      ∃ r, verify ⟨request.paymentHeader, request.paymentRequirements⟩ env = .ok r ∧
        r.isValid = true) ∧
    (∀ r, env.walletConfigured = true →
      truthyOpt (parsePaymentHeader request.paymentHeader) = true →
      verify ⟨request.paymentHeader, request.paymentRequirements⟩ env = .ok r →
      r.isValid = false →
      settle request env =
        (.ok { success := false, network := request.paymentRequirements.network,
               error := some ("Verification failed: "
                 ++ jsTemplateStr r.invalidReason) }, [])) := by
  constructor
  · intro hacts
    rw [settle] at hacts
    by_cases hw : env.walletConfigured = true
    · rw [if_neg (by simp [hw])] at hacts
      cases hp : parsePaymentHeader request.paymentHeader with
      | none => rw [hp] at hacts; simp at hacts
      | some j =>
        rw [hp] at hacts
        dsimp only at hacts
        by_cases ht : truthy j = true
        · rw [if_neg (by simp [ht])] at hacts
          cases hv : verify ⟨request.paymentHeader, request.paymentRequirements⟩ env with
          | error e => rw [hv] at hacts; simp at hacts
          | ok r =>
            rw [hv] at hacts
            dsimp only at hacts
            by_cases hiv : r.isValid = true
            · exact ⟨r, rfl, hiv⟩
            · rw [if_pos (by simp at hiv; simp [hiv])] at hacts
              simp at hacts
        · rw [if_pos (by simp at ht; simp [ht])] at hacts
          simp at hacts
    · rw [if_pos (by simp at hw; simp [hw])] at hacts
      simp at hacts
  · intro r hw htr hv hiv
    rw [settle]
    rw [if_neg (by simp [hw])]
    cases hp : parsePaymentHeader request.paymentHeader with
    | none => rw [hp] at htr; simp [truthyOpt] at htr
    | some j =>
      rw [hp] at htr
      simp only [truthyOpt] at htr
      dsimp only
      rw [if_neg (by simp [htr])]
      rw [hv]
      dsimp only
      rw [if_pos (by simp [hiv])]

/-- Token failing the amount check against `demoReqs`. -/
def c1Token : TronPaymentToken :=
  { demoToken with payload := { demoPayload with value := "999" } }

/-- C1 witness: a request whose re-verification fails on the amount check
settles to the verification-failed result with no submission. -/
theorem claim_C1_settle_reverifies_witness :
    settle ⟨encodePaymentHeader c1Token, demoReqs⟩ demoEnv =
      (.ok { success := false, network := "tron-shasta",
             error := some "Verification failed: Insufficient payment: required 1000, got 999" },
       []) := by
  rw [(claim_C1_settle_reverifies ⟨encodePaymentHeader c1Token, demoReqs⟩ demoEnv).2
    { isValid := false,
      invalidReason := some "Insufficient payment: required 1000, got 999" }
    (by decide) (by decide) (by decide) (by decide)]
  rfl

/-- Number of status queries in a polling trace. -/
def countQueries : List LoopAction → Nat
  | [] => 0
  | .query _ :: rest => countQueries rest + 1
  | .sleep _ :: rest => countQueries rest

theorem trc20Loop_query_bound (poll : Nat → Except String (Option (Option String))) :
    ∀ fuel, countQueries (trc20ConfirmLoop poll fuel).2 ≤ fuel := by
  intro fuel
  induction fuel with
  | zero => simp [trc20ConfirmLoop, countQueries]
  | succ f ih =>
    rw [trc20ConfirmLoop]
    cases hp : poll (maxAttempts - (f + 1)) with
    | error e => simp [countQueries]
    | ok o =>
      cases o with
      | none => simp [countQueries]; omega
      | some result =>
        cases result with
        | none => simp [countQueries]
        | some s =>
          by_cases h1 : s = "SUCCESS" <;> by_cases h2 : s ≠ "" <;>
            simp [h1, h2, countQueries]

theorem trc20Loop_sleep_fixed (poll : Nat → Except String (Option (Option String))) :
    ∀ fuel ms, LoopAction.sleep ms ∈ (trc20ConfirmLoop poll fuel).2 → ms = pollIntervalMs := by
  intro fuel
  induction fuel with
  | zero => intro ms hm; simp [trc20ConfirmLoop] at hm
  | succ f ih =>
    intro ms hm
    rw [trc20ConfirmLoop] at hm
    cases hp : poll (maxAttempts - (f + 1)) with
    | error e => rw [hp] at hm; simp at hm; exact hm
    | ok o =>
      cases o with
      | none =>
        rw [hp] at hm
        simp at hm
        rcases hm with h | h
        · exact h
        · exact ih ms h
      | some result =>
        rw [hp] at hm
        cases result with
        | none => simp at hm; exact hm
        | some s =>
          by_cases h1 : s = "SUCCESS" <;> by_cases h2 : s ≠ "" <;>
            simp [h1, h2] at hm <;> exact hm

theorem trc20Loop_timeout (poll : Nat → Except String (Option (Option String))) :
    ∀ fuel, fuel ≤ maxAttempts →
      (∀ j, maxAttempts - fuel ≤ j → j < maxAttempts → poll j = .ok none) →
      (trc20ConfirmLoop poll fuel).1 = .ok .timeout := by
  intro fuel
  induction fuel with
  | zero => intro _ _; rfl
  | succ f ih =>
    intro hle hnone
    rw [trc20ConfirmLoop]
    rw [hnone (maxAttempts - (f + 1)) (by omega) (by simp [maxAttempts]; omega)]
    exact ih (by omega) (fun j hj1 hj2 => hnone j (by omega) hj2)

theorem trc20Loop_terminal (poll : Nat → Except String (Option (Option String))) :
    ∀ fuel i, fuel ≤ maxAttempts → maxAttempts - fuel ≤ i → i < maxAttempts →
      (∀ j, maxAttempts - fuel ≤ j → j < i → poll j = .ok none) →
      ((poll i = .ok (some (some "SUCCESS")) →
          (trc20ConfirmLoop poll fuel).1 = .ok .confirmedOk) ∧
       (∀ res, res ≠ "SUCCESS" → res ≠ "" → poll i = .ok (some (some res)) →
          (trc20ConfirmLoop poll fuel).1 = .ok (.failedReceipt res))) := by
  intro fuel
  induction fuel with
  | zero => intro i h0 hi1 hi2 _; simp [maxAttempts] at h0 ⊢; omega
  | succ f ih =>
    intro i hle hi1 hi2 hnone
    by_cases heq : maxAttempts - (f + 1) = i
    · constructor
      · intro hp
        rw [trc20ConfirmLoop, heq, hp]
        simp
      · intro res h1 h2 hp
        rw [trc20ConfirmLoop, heq, hp]
        simp [h1, h2]
    · have hlt : maxAttempts - (f + 1) < i := by omega
      have hstep := hnone (maxAttempts - (f + 1)) (by omega) hlt
      have := ih i (by omega) (by omega) hi2 (fun j hj1 hj2 => hnone j (by omega) hj2)
      constructor
      · intro hp
        rw [trc20ConfirmLoop, hstep]
        exact this.1 hp
      · intro res h1 h2 hp
        rw [trc20ConfirmLoop, hstep]
        exact this.2 res h1 h2 hp

theorem jsAccess_some_payloadToJson (p : TronTransferPayload) (k : String) :
    jsAccess (some (payloadToJson p)) k = .ok (jsGet (payloadToJson p) k) := by
  rw [payloadToJson]
  rfl

theorem executeTRC20_reduces (t : TronPaymentToken) (ta network : String) (env : Env)
    (tx : String) (hta : t.payload.tokenAddress = some ta) (hne : ta ≠ "")
    (hsend : env.contractSend (some (.str ta)) (some (.str t.payload.to_))
      (some (.str t.payload.value)) = .ok tx) :
    executeTRC20Settlement (tokenToJson t) network env =
      (match (trc20ConfirmLoop env.trc20Poll maxAttempts).1 with
       | .error e =>
         (.error e,
          [ChainAction.contractTransfer (some (.str ta)) (some (.str t.payload.to_))
             (some (.str t.payload.value))])
       | .ok .confirmedOk =>
         (.ok { success := true, network := network, transactionHash := some tx,
                settledAmount := some (.str t.payload.value) },
          [ChainAction.contractTransfer (some (.str ta)) (some (.str t.payload.to_))
             (some (.str t.payload.value))])
       | .ok (.failedReceipt r) =>
         (.ok { success := false, network := network, transactionHash := some tx,
                error := some ("Transaction failed: " ++ r) },
          [ChainAction.contractTransfer (some (.str ta)) (some (.str t.payload.to_))
             (some (.str t.payload.value))])
       | .ok .timeout =>
         (.ok { success := false, network := network, transactionHash := some tx,
                error := some "Transaction confirmation timeout" },
          [ChainAction.contractTransfer (some (.str ta)) (some (.str t.payload.to_))
             (some (.str t.payload.value))])) := by
  rw [executeTRC20Settlement]
  dsimp only
  rw [jsGet_tokenToJson_payload, jsAccess_some_payloadToJson,
    jsGet_payloadToJson_tokenAddress, hta]
  simp only [Option.map_some']
  rw [if_neg (by simp [truthyOpt, truthy, hne])]
  rw [jsAccess_some_payloadToJson, jsAccess_some_payloadToJson,
    jsGet_payloadToJson_to, jsGet_payloadToJson_value]
  dsimp only
  rw [hsend]

/-- Environment whose first two status polls find no receipt and whose
third returns a `SUCCESS` receipt. -/
def c8Env : Env :=
  { demoEnv with
    trc20Poll := fun j => if j < 2 then .ok none else .ok (some (some "SUCCESS")) }

/-- C8: the TRC20 confirmation loop polls at a fixed 2000 ms interval for at
most 30 attempts; once the contract transfer is submitted (hash `tx`), a
`SUCCESS` receipt at the first decisive poll confirms the settlement as
`success := true` with the transaction hash and the payload value as
`settledAmount`; a non-success, non-empty receipt result ends it as
`success := false` carrying the hash and the receipt result inside the
error string; and a run in which every poll finds no receipt ends as a
timeout failure that still carries the hash. -/
theorem claim_C8_trc20_confirmation (t : TronPaymentToken) (ta network : String)
    (env : Env) (tx : String) (i : Nat) (res : String)
    (hta : t.payload.tokenAddress = some ta) (hne : ta ≠ "")
    (hsend : env.contractSend (some (.str ta)) (some (.str t.payload.to_))
      (some (.str t.payload.value)) = .ok tx)
    (hi : i < maxAttempts)
    (hbefore : ∀ j, j < i → env.trc20Poll j = .ok none) :
    pollIntervalMs = 2000 ∧ maxAttempts = 30 ∧
    countQueries (trc20ConfirmLoop env.trc20Poll maxAttempts).2 ≤ 30 ∧
    (∀ ms, LoopAction.sleep ms ∈ (trc20ConfirmLoop env.trc20Poll maxAttempts).2 →
      ms = 2000) ∧
    (env.trc20Poll i = .ok (some (some "SUCCESS")) →
      executeTRC20Settlement (tokenToJson t) network env =
        (.ok { success := true, network := network, transactionHash := some tx,
               settledAmount := some (.str t.payload.value) },
         [ChainAction.contractTransfer (some (.str ta)) (some (.str t.payload.to_))
            (some (.str t.payload.value))])) ∧
    (res ≠ "SUCCESS" → res ≠ "" → env.trc20Poll i = .ok (some (some res)) →
      executeTRC20Settlement (tokenToJson t) network env =
        (.ok { success := false, network := network, transactionHash := some tx,
               error := some ("Transaction failed: " ++ res) },
         [ChainAction.contractTransfer (some (.str ta)) (some (.str t.payload.to_))
            (some (.str t.payload.value))])) ∧
    ((∀ j, j < maxAttempts → env.trc20Poll j = .ok none) →
      executeTRC20Settlement (tokenToJson t) network env =
        (.ok { success := false, network := network, transactionHash := some tx,
               error := some "Transaction confirmation timeout" },
         [ChainAction.contractTransfer (some (.str ta)) (some (.str t.payload.to_))
            (some (.str t.payload.value))])) := by
  have hred := executeTRC20_reduces t ta network env tx hta hne hsend
  refine ⟨rfl, rfl, trc20Loop_query_bound env.trc20Poll maxAttempts,
    fun ms hm => trc20Loop_sleep_fixed env.trc20Poll maxAttempts ms hm, ?_, ?_, ?_⟩
  · intro hp
    have hterm := (trc20Loop_terminal env.trc20Poll maxAttempts i (le_refl _)
      (by omega) hi (fun j _ hj2 => hbefore j hj2)).1 hp
    rw [hred, hterm]
  · intro h1 h2 hp
    have hterm := (trc20Loop_terminal env.trc20Poll maxAttempts i (le_refl _)
      (by omega) hi (fun j _ hj2 => hbefore j hj2)).2 res h1 h2 hp
    rw [hred, hterm]
  · intro hall
    have ht := trc20Loop_timeout env.trc20Poll maxAttempts (le_refl _)
      (fun j _ hj2 => hall j hj2)
    rw [hred, ht]

/-- C8 witness: under `c8Env` the loop passes two empty polls and confirms
on the third, and the settlement result carries the submitted hash and
amount. -/
theorem claim_C8_trc20_confirmation_witness :
    executeTRC20Settlement (tokenToJson c7Token) "tron-shasta" c8Env =
      (.ok { success := true, network := "tron-shasta", transactionHash := some "tx1",
             settledAmount := some (.str "1000") },
       [ChainAction.contractTransfer (some (.str "TK")) (some (.str "b"))
          (some (.str "1000"))]) :=
  (claim_C8_trc20_confirmation c7Token "TK" "tron-shasta" c8Env "tx1" 2 "x"
      (by decide) (by decide) (by decide) (by decide)
      (by intro j hj; simp [c8Env, hj])).2.2.2.2.1 (by decide)

/-- C7 amended: in the failure results the settlement paths construct
THEMSELVES after a successful submission — a non-success receipt or a
confirmation timeout — the transaction identifier is present: on the TRC20
path every non-success result returned (not thrown) after the contract
transfer yielded hash `tx` carries `transactionHash = some tx`, and on the
native path every non-success result returned after a successful
`sendTrx`-style submission carries the submitted transaction id.  (The
original claim fails only for exceptions thrown during polling, settled by
the counterexample.) -/
theorem claim_C7_failure_hash (t t2 : TronPaymentToken) (ta network tx tx2 : String)
    (env : Env) (res : NativeSendRes) (r r2 : SettleResponse)
    (hta : t.payload.tokenAddress = some ta) (hne : ta ≠ "")
    (hsend : env.contractSend (some (.str ta)) (some (.str t.payload.to_))
      (some (.str t.payload.value)) = .ok tx)
    (hnsend : env.nativeSend (some (.str t2.payload.to_))
      (jsParseIntOfValue (some (.str t2.payload.value))) = .ok res)
    (hres : res.result = true)
    (htx2 : jsOrStr res.txid res.transactionTxID = some tx2) :
    ((executeTRC20Settlement (tokenToJson t) network env).1 = .ok r →
      r.success = false → r.transactionHash = some tx) ∧
    ((executeTRXSettlement (tokenToJson t2) network env).1 = .ok r2 →
      r2.success = false → r2.transactionHash = some tx2) := by
  constructor
  · intro hok hsucc
    rw [executeTRC20_reduces t ta network env tx hta hne hsend] at hok
    cases hloop : (trc20ConfirmLoop env.trc20Poll maxAttempts).1 with
    | error e => rw [hloop] at hok; exact absurd hok (by simp)
    | ok ex =>
      cases ex with
      | confirmedOk =>
        rw [hloop] at hok
        dsimp only at hok
        injection hok with h
        subst h
        simp at hsucc
      | failedReceipt s =>
        rw [hloop] at hok
        dsimp only at hok
        injection hok with h
        subst h
        rfl
      | timeout =>
        rw [hloop] at hok
        dsimp only at hok
        injection hok with h
        subst h
        rfl
  · intro hok hsucc
    rw [executeTRXSettlement] at hok
    rw [jsGet_tokenToJson_payload, jsAccess_some_payloadToJson,
      jsAccess_some_payloadToJson, jsGet_payloadToJson_to,
      jsGet_payloadToJson_value] at hok
    dsimp only at hok
    rw [hnsend] at hok
    dsimp only at hok
    rw [if_neg (by simp [hres])] at hok
    rw [htx2] at hok
    cases hloop : (nativeConfirmLoop env.nativePoll maxAttempts).1 with
    | error e => rw [hloop] at hok; exact absurd hok (by simp)
    | ok b =>
      cases b with
      | true =>
        rw [hloop] at hok
        dsimp only at hok
        injection hok with h
        subst h
        simp at hsucc
      | false =>
        rw [hloop] at hok
        dsimp only at hok
        injection hok with h
        subst h
        rfl

/-- Environment whose polls always return a non-success receipt. -/
def c7bEnv : Env := { demoEnv with trc20Poll := fun _ => .ok (some (some "REVERT")) }

/-- The non-success TRC20 settlement result produced under `c7bEnv`. -/
def c7bRes : SettleResponse :=
  { success := false, network := "tron-shasta", transactionHash := some "tx1",
    error := some "Transaction failed: REVERT" }

/-- C7 amended witness: the concrete receipt-failure result keeps the
submitted hash. -/
theorem claim_C7_failure_hash_witness :
    c7bRes.success = false ∧ c7bRes.transactionHash = some "tx1" :=
  ⟨by decide,
   (claim_C7_failure_hash c7Token demoToken "TK" "tron-shasta" "tx1" "t1" c7bEnv
      { result := true, txid := some "t1" } c7bRes c7bRes
      (by decide) (by decide) (by decide) (by decide) (by decide) (by decide)).1
     (by decide) (by decide)⟩
